import Mathlib

/-!
# Verification of the Adressbuch contact store and vCard/CSV codecs

Shallow embedding of `addressbook_gui.py`.  Python strings are modelled as
`List Char` (a Python `str` is a sequence of characters); Python dicts holding
a contact are modelled as a `Contact` structure (all twelve canonical keys
present) or a `PartialContact` structure (`Option` fields, a key that may be
absent).  Fresh identifiers produced by `uuid.uuid4().hex` are threaded as
explicit arguments.  File persistence (`save`) is a no-op in the pure model;
the in-memory contact list is the store state.
-/

namespace Adressbuch

/-- Python strings are sequences of characters. -/
abbrev Str := List Char

/-- Interpret a Lean string literal as a Python string value. -/
def str (s : String) : Str := s.data

/-- The characters Python's `str.strip()` removes (ASCII whitespace). -/
def isWS (c : Char) : Bool :=
  c = ' ' || c = '\t' || c = '\n' || c = '\r' || c = '\x0b' || c = '\x0c'

/-- Python `s.strip()`. -/
def pyStrip (s : Str) : Str :=
  ((s.dropWhile isWS).reverse.dropWhile isWS).reverse

/-- Python `s.lower()` (ASCII letters). -/
def pyLower (s : Str) : Str := s.map Char.toLower

/-- Python `s.upper()` (ASCII letters). -/
def pyUpper (s : Str) : Str := s.map Char.toUpper

/-- Python `s.split(sep)` for a one-character separator: never empty,
`"".split(sep) = [""]`. -/
def splitChar (sep : Char) : Str → List Str
  | [] => [[]]
  | c :: rest =>
    if c = sep then [] :: splitChar sep rest
    else
      match splitChar sep rest with
      | [] => [[c]]
      | p :: ps => (c :: p) :: ps

/-- Python `s.split(sep, 1)` when `sep` occurs: the part before the first
occurrence and the part after it.  `none` when `sep` does not occur. -/
def splitFirst (sep : Char) : Str → Option (Str × Str)
  | [] => none
  | c :: rest =>
    if c = sep then some ([], rest)
    else (splitFirst sep rest).map (fun p => (c :: p.1, p.2))

/-- Python `(v or "").strip()` on an optional string. -/
def _safe_strip (v : Option Str) : Str := pyStrip (v.getD [])

/-- One canonical contact record: the twelve keys of `DEFAULT_CONTACT`. -/
structure Contact where
  _id : Str := []
  vorname : Str := []
  name : Str := []
  strasse : Str := []
  plz : Str := []
  ort : Str := []
  mobile : Str := []
  festnetz : Str := []
  email : Str := []
  geburtsdatum : Str := []
  webseite : Str := []
  last_used : Str := []
  deriving DecidableEq, Repr

/-- The `DEFAULT_CONTACT` dict: every field the empty string. -/
def DEFAULT_CONTACT : Contact := {}

/-- A Python dict with any subset of the twelve canonical keys:
`none` models an absent key. -/
structure PartialContact where
  _id : Option Str := none
  vorname : Option Str := none
  name : Option Str := none
  strasse : Option Str := none
  plz : Option Str := none
  ort : Option Str := none
  mobile : Option Str := none
  festnetz : Option Str := none
  email : Option Str := none
  geburtsdatum : Option Str := none
  webseite : Option Str := none
  last_used : Option Str := none
  deriving DecidableEq, Repr

/-- Python merge `{**DEFAULT_CONTACT, **contact}`: absent keys default to the
empty string. -/
def withDefaults (p : PartialContact) : Contact where
  _id := p._id.getD []
  vorname := p.vorname.getD []
  name := p.name.getD []
  strasse := p.strasse.getD []
  plz := p.plz.getD []
  ort := p.ort.getD []
  mobile := p.mobile.getD []
  festnetz := p.festnetz.getD []
  email := p.email.getD []
  geburtsdatum := p.geburtsdatum.getD []
  webseite := p.webseite.getD []
  last_used := p.last_used.getD []

/-- Python truthiness of the dict: at least one key present. -/
def curNonempty (p : PartialContact) : Bool :=
  p._id.isSome || p.vorname.isSome || p.name.isSome || p.strasse.isSome ||
  p.plz.isSome || p.ort.isSome || p.mobile.isSome || p.festnetz.isSome ||
  p.email.isSome || p.geburtsdatum.isSome || p.webseite.isSome ||
  p.last_used.isSome

/-- Python truthiness of `cur.get(k)`: key absent or empty string. -/
def falsy (o : Option Str) : Bool := (o.getD []).isEmpty

/-! ## The store (`class AddressBook`)

The store state is its `contacts` list.  `save` writes the state to disk and
is the identity here; `find_by_id` / `find_by_email` return the first match
in storage order.  `findEntry` additionally returns the position, which the
Python code gets for free by mutating the found dict in place. -/

/-- First entry satisfying `p` together with its position. -/
def findEntry (p : Contact → Bool) : List Contact → Option (Nat × Contact)
  | [] => none
  | c :: rest =>
    if p c then some (0, c)
    else (findEntry p rest).map (fun ic => (ic.1 + 1, ic.2))

/-- The comparison `(c.get("_id") or "").strip() == cid.strip()`. -/
def idMatch (cid : Str) (c : Contact) : Bool := pyStrip c._id == pyStrip cid

/-- The comparison `(c.get("email") or "").lower().strip() == email.lower().strip()`. -/
def emailMatch (email : Str) (c : Contact) : Bool :=
  pyStrip (pyLower c.email) == pyStrip (pyLower email)

/-- Method `AddressBook.find_by_id`. -/
def find_by_id (cs : List Contact) (cid : Str) : Option Contact :=
  (findEntry (idMatch cid) cs).map (·.2)

/-- Method `AddressBook.find_by_email`. -/
def find_by_email (cs : List Contact) (email : Str) : Option Contact :=
  (findEntry (emailMatch email) cs).map (·.2)

/-- Method `AddressBook.upsert_full`.  `fresh` stands for the value of
`uuid.uuid4().hex` in whichever of the two call sites executes (at most one
does per call). -/
def upsert_full (cs : List Contact) (contact : PartialContact) (fresh : Str) :
    List Contact :=
  let incoming := withDefaults contact
  let cid := pyStrip incoming._id
  match (if cid = [] then none else findEntry (idMatch cid) cs) with
  | some jc => cs.set jc.1 incoming
  | none =>
    let em := pyStrip incoming.email
    match (if em = [] then none else findEntry (emailMatch em) cs) with
    | some jc =>
      let nid := if jc.2._id = [] then fresh else jc.2._id
      cs.set jc.1 { incoming with _id := nid }
    | none => cs ++ [{ incoming with _id := fresh }]

/-- Method `AddressBook.delete_by_id`. -/
def delete_by_id (cs : List Contact) (cid : Str) : List Contact :=
  cs.filter (fun c => ¬ (pyStrip c._id == pyStrip cid))

/-- The documented store invariant: every stored record has a non-empty id. -/
def WFBook (cs : List Contact) : Prop := ∀ c ∈ cs, c._id ≠ []

/-! ## Character and string lemmas -/

theorem toNat_ofNat_valid (n : Nat) (hv : n.isValidChar) : (Char.ofNat n).toNat = n := by
  simp only [Char.ofNat, hv, dif_pos]
  simp only [Char.ofNatAux, Char.toNat, UInt32.toNat, BitVec.toNat_ofNatLt]

theorem char_eq_iff_toNat {d e : Char} : d = e ↔ d.toNat = e.toNat := by
  constructor
  · intro h; rw [h]
  · intro h
    exact Char.eq_of_val_eq (UInt32.eq_of_toBitVec_eq (BitVec.eq_of_toNat_eq h))

theorem isWS_toNat (d : Char) :
    isWS d = (d.toNat = 32 || d.toNat = 9 || d.toNat = 10 || d.toNat = 13 ||
              d.toNat = 11 || d.toNat = 12) := by
  have h : ∀ (e : Char), (decide (d = e)) = decide (d.toNat = e.toNat) := by
    intro e
    simp [char_eq_iff_toNat]
  simp only [isWS, h]
  rfl

/-- Lowering a character does not change whether it is whitespace. -/
theorem isWS_toLower (c : Char) : isWS c.toLower = isWS c := by
  rw [isWS_toNat, isWS_toNat]
  simp only [Char.toLower]
  split
  · rename_i h
    have ht : (Char.ofNat (c.toNat + 32)).toNat = c.toNat + 32 :=
      toNat_ofNat_valid _ (Or.inl (by omega))
    rw [ht]
    have h1 : c.toNat ≥ 65 := h.1
    have h2 : c.toNat ≤ 90 := h.2
    have e1 : ∀ m k : Nat, m ≠ k → decide (m = k) = false := by
      intro m k hmk; simp [hmk]
    rw [e1 _ _ (by omega), e1 _ _ (by omega), e1 _ _ (by omega), e1 _ _ (by omega),
        e1 _ _ (by omega), e1 _ _ (by omega), e1 _ _ (by omega), e1 _ _ (by omega),
        e1 _ _ (by omega), e1 _ _ (by omega), e1 _ _ (by omega), e1 _ _ (by omega)]
  · rfl

theorem dropWhile_idem_ws (l : Str) :
    (l.dropWhile isWS).dropWhile isWS = l.dropWhile isWS := by
  induction l with
  | nil => rfl
  | cons a rest ih =>
    by_cases ha : isWS a
    · simp [List.dropWhile_cons, ha, ih]
    · simp [List.dropWhile_cons, ha]

theorem dropWhile_eq_self_of_isPrefix {l l' : Str} (hpre : l' <+: l)
    (h : l.dropWhile isWS = l) : l'.dropWhile isWS = l' := by
  cases l' with
  | nil => rfl
  | cons a t =>
    obtain ⟨r, hr⟩ := hpre
    subst hr
    rw [List.dropWhile_eq_self_iff] at h
    have ha := h (by simp)
    simp only [List.get] at ha
    simp [List.dropWhile_cons, ha]

theorem pyStrip_isPrefix (s : Str) : pyStrip s <+: s.dropWhile isWS := by
  rw [← List.reverse_suffix]
  simp only [pyStrip, List.reverse_reverse]
  exact List.dropWhile_suffix isWS

/-- Python `strip` is idempotent. -/
theorem pyStrip_idem (s : Str) : pyStrip (pyStrip s) = pyStrip s := by
  have h1 : (pyStrip s).dropWhile isWS = pyStrip s :=
    dropWhile_eq_self_of_isPrefix (pyStrip_isPrefix s) (dropWhile_idem_ws s)
  have e : (pyStrip s).reverse = (s.dropWhile isWS).reverse.dropWhile isWS := by
    simp [pyStrip]
  show (((pyStrip s).dropWhile isWS).reverse.dropWhile isWS).reverse = pyStrip s
  rw [h1, e, dropWhile_idem_ws, ← e, List.reverse_reverse]

/-- Lowercasing commutes with stripping. -/
theorem pyLower_pyStrip (s : Str) : pyLower (pyStrip s) = pyStrip (pyLower s) := by
  have hcomp : (isWS ∘ Char.toLower) = isWS := by
    funext c; exact isWS_toLower c
  have key : ∀ l : Str, (l.map Char.toLower).dropWhile isWS
      = (l.dropWhile isWS).map Char.toLower := by
    intro l
    rw [List.dropWhile_map, hcomp]
  simp only [pyStrip, pyLower]
  rw [List.map_reverse, ← key, List.map_reverse, ← key]

theorem pyStrip_pyLower_pyStrip (s : Str) :
    pyStrip (pyLower (pyStrip s)) = pyStrip (pyLower s) := by
  rw [pyLower_pyStrip, pyStrip_idem]

/-! ## Lemmas about `findEntry` -/

theorem findEntry_eq_none {p : Contact → Bool} {cs : List Contact} :
    findEntry p cs = none ↔ ∀ c ∈ cs, p c = false := by
  induction cs with
  | nil => simp [findEntry]
  | cons c rest ih =>
    by_cases hc : p c
    · simp [findEntry, hc]
    · simp [findEntry, hc, Option.map_eq_none', ih]

theorem findEntry_some_facts {p : Contact → Bool} {cs : List Contact} {j : Nat}
    {c : Contact} (h : findEntry p cs = some (j, c)) :
    cs[j]? = some c ∧ p c = true ∧
      ∀ i, i < j → ∀ x, cs[i]? = some x → p x = false := by
  induction cs generalizing j with
  | nil => simp [findEntry] at h
  | cons a rest ih =>
    by_cases ha : p a
    · simp only [findEntry, ha, if_pos, Option.some.injEq, Prod.mk.injEq] at h
      obtain ⟨hj, hc⟩ := h
      subst hj; subst hc
      exact ⟨by simp, ha, fun i hi => by omega⟩
    · simp only [findEntry, ha, if_neg, Bool.false_eq_true, not_false_iff,
        Option.map_eq_some'] at h
      obtain ⟨⟨j', c'⟩, hfe, hj⟩ := h
      simp only [Prod.mk.injEq] at hj
      obtain ⟨hj1, hj2⟩ := hj
      subst hj2
      obtain ⟨hget, hpc, hbefore⟩ := ih hfe
      refine ⟨by simpa [← hj1] using hget, hpc, ?_⟩
      intro i hi x hx
      match i with
      | 0 =>
        simp only [List.getElem?_cons_zero, Option.some.injEq] at hx
        subst hx
        simpa using ha
      | Nat.succ k =>
        simp only [List.getElem?_cons_succ] at hx
        exact hbefore k (by omega) x hx

theorem findEntry_set_found {p : Contact → Bool} {cs : List Contact} {j : Nat}
    {c : Contact} (x : Contact) (h : findEntry p cs = some (j, c))
    (hx : p x = true) : findEntry p (cs.set j x) = some (j, x) := by
  induction cs generalizing j with
  | nil => simp [findEntry] at h
  | cons a rest ih =>
    by_cases ha : p a
    · simp only [findEntry, ha, if_pos, Option.some.injEq, Prod.mk.injEq] at h
      obtain ⟨hj, _⟩ := h
      subst hj
      simp [List.set, findEntry, hx]
    · simp only [findEntry, ha, if_neg, Bool.false_eq_true, not_false_iff,
        Option.map_eq_some'] at h
      obtain ⟨⟨j', c'⟩, hfe, hj⟩ := h
      simp only [Prod.mk.injEq] at hj
      obtain ⟨hj1, hj2⟩ := hj
      subst hj2
      subst hj1
      simp [List.set, findEntry, ha, ih hfe]

theorem findEntry_none_set {p : Contact → Bool} {cs : List Contact} (j : Nat)
    (x : Contact) (h : findEntry p cs = none) (hx : p x = false) :
    findEntry p (cs.set j x) = none := by
  induction cs generalizing j with
  | nil => simp [findEntry]
  | cons a rest ih =>
    by_cases ha : p a
    · simp [findEntry, ha] at h
    · simp only [findEntry, ha, if_neg, Bool.false_eq_true, not_false_iff,
        Option.map_eq_none'] at h
      match j with
      | 0 => simp [List.set, findEntry, hx, Option.map_eq_none', h]
      | Nat.succ k => simp [List.set, findEntry, ha, Option.map_eq_none', ih k h]

theorem findEntry_append_one {p : Contact → Bool} {cs : List Contact}
    (x : Contact) (h : findEntry p cs = none) :
    findEntry p (cs ++ [x]) =
      if p x then some (cs.length, x) else none := by
  induction cs with
  | nil =>
    by_cases hx : p x <;> simp [findEntry, hx]
  | cons a rest ih =>
    by_cases ha : p a
    · simp [findEntry, ha] at h
    · simp only [findEntry, ha, if_neg, Bool.false_eq_true, not_false_iff,
        Option.map_eq_none'] at h
      by_cases hx : p x <;> simp [findEntry, ha, ih h, hx]

theorem set_same {α : Type} {l : List α} {j : Nat} {v : α}
    (h : l[j]? = some v) : l.set j v = l := by
  induction l generalizing j with
  | nil => rfl
  | cons a rest ih =>
    match j with
    | 0 =>
      simp only [List.getElem?_cons_zero, Option.some.injEq] at h
      simp [List.set, h]
    | Nat.succ k =>
      simp only [List.getElem?_cons_succ] at h
      simp [List.set, ih h]

theorem mem_of_getElemQ {α : Type} {l : List α} {j : Nat} {v : α}
    (h : l[j]? = some v) : v ∈ l := by
  induction l generalizing j with
  | nil => simp at h
  | cons a rest ih =>
    match j with
    | 0 =>
      simp only [List.getElem?_cons_zero, Option.some.injEq] at h
      simp [h]
    | Nat.succ k =>
      simp only [List.getElem?_cons_succ] at h
      simp [ih h]

/-! ## Branch lemmas for `upsert_full` -/

theorem upsert_full_id_branch {cs : List Contact} {p : PartialContact}
    {fresh : Str} {j : Nat} {ex : Contact}
    (hcid : pyStrip (withDefaults p)._id ≠ [])
    (h : findEntry (idMatch (pyStrip (withDefaults p)._id)) cs = some (j, ex)) :
    upsert_full cs p fresh = cs.set j (withDefaults p) := by
  simp only [upsert_full]
  rw [if_neg hcid, h]

theorem upsert_full_email_branch {cs : List Contact} {p : PartialContact}
    {fresh : Str} {j : Nat} {ex : Contact}
    (hid : pyStrip (withDefaults p)._id = [] ∨
      findEntry (idMatch (pyStrip (withDefaults p)._id)) cs = none)
    (hem : pyStrip (withDefaults p).email ≠ [])
    (h : findEntry (emailMatch (pyStrip (withDefaults p).email)) cs = some (j, ex)) :
    upsert_full cs p fresh =
      cs.set j { withDefaults p with
        _id := if ex._id = [] then fresh else ex._id } := by
  simp only [upsert_full]
  rcases hid with hid | hid
  · rw [if_pos hid, if_neg hem, h]
  · by_cases hcid : pyStrip (withDefaults p)._id = []
    · rw [if_pos hcid, if_neg hem, h]
    · rw [if_neg hcid, hid, if_neg hem, h]

theorem upsert_full_append_branch {cs : List Contact} {p : PartialContact}
    {fresh : Str}
    (hid : pyStrip (withDefaults p)._id = [] ∨
      findEntry (idMatch (pyStrip (withDefaults p)._id)) cs = none)
    (hem : pyStrip (withDefaults p).email = [] ∨
      findEntry (emailMatch (pyStrip (withDefaults p).email)) cs = none) :
    upsert_full cs p fresh = cs ++ [{ withDefaults p with _id := fresh }] := by
  simp only [upsert_full]
  have h1 : (if pyStrip (withDefaults p)._id = [] then none
      else findEntry (idMatch (pyStrip (withDefaults p)._id)) cs) = none := by
    rcases hid with hid | hid
    · rw [if_pos hid]
    · by_cases hcid : pyStrip (withDefaults p)._id = []
      · rw [if_pos hcid]
      · rw [if_neg hcid, hid]
  have h2 : (if pyStrip (withDefaults p).email = [] then none
      else findEntry (emailMatch (pyStrip (withDefaults p).email)) cs) = none := by
    rcases hem with hem | hem
    · rw [if_pos hem]
    · by_cases hcem : pyStrip (withDefaults p).email = []
      · rw [if_pos hcem]
      · rw [if_neg hcem, hem]
  rw [h1, h2]

/-! ## C1: identity resolution priority -/

/-- C1.  `upsert_full` resolves identity in strict priority order: a
non-empty trimmed incoming id that matches an existing record updates that
record in place (every field replaced by the incoming ones); otherwise a
non-empty incoming email that matches an existing record case-insensitively
updates the first such record, which keeps its existing id (the incoming id
is never adopted); otherwise the record is appended with the freshly
generated id. -/
theorem C1_upsert_identity_priority (cs : List Contact) (p : PartialContact)
    (fresh : Str) (hwf : WFBook cs) :
    (∀ j ex, pyStrip (withDefaults p)._id ≠ [] →
      findEntry (idMatch (pyStrip (withDefaults p)._id)) cs = some (j, ex) →
      upsert_full cs p fresh = cs.set j (withDefaults p)) ∧
    (∀ j ex, (pyStrip (withDefaults p)._id = [] ∨
        findEntry (idMatch (pyStrip (withDefaults p)._id)) cs = none) →
      pyStrip (withDefaults p).email ≠ [] →
      findEntry (emailMatch (pyStrip (withDefaults p).email)) cs = some (j, ex) →
      upsert_full cs p fresh = cs.set j { withDefaults p with _id := ex._id }) ∧
    ((pyStrip (withDefaults p)._id = [] ∨
        findEntry (idMatch (pyStrip (withDefaults p)._id)) cs = none) →
      (pyStrip (withDefaults p).email = [] ∨
        findEntry (emailMatch (pyStrip (withDefaults p).email)) cs = none) →
      upsert_full cs p fresh = cs ++ [{ withDefaults p with _id := fresh }]) := by
  refine ⟨?_, ?_, ?_⟩
  · intro j ex hcid h
    exact upsert_full_id_branch hcid h
  · intro j ex hid hem h
    have hm := (findEntry_some_facts h).1
    have hne : ex._id ≠ [] := hwf ex (mem_of_getElemQ hm)
    rw [upsert_full_email_branch hid hem h, if_neg hne]
  · intro hid hem
    exact upsert_full_append_branch hid hem

/-- Witness for C1: an email-only incoming record updates the id-X record and
keeps id X. -/
theorem C1_witness :
    WFBook [{ _id := str "X", email := str "a@x.com" }] ∧
    upsert_full [{ _id := str "X", email := str "a@x.com" }]
      { email := some (str "A@X.com"), name := some (str "Doe") } (str "f")
      = [{ _id := str "X", email := str "A@X.com", name := str "Doe" }] := by
  have hwf : WFBook [{ _id := str "X", email := str "a@x.com" }] := by
    intro c hc
    simp only [List.mem_singleton] at hc
    subst hc
    decide
  refine ⟨hwf, ?_⟩
  have h := (C1_upsert_identity_priority
    [{ _id := str "X", email := str "a@x.com" }]
    { email := some (str "A@X.com"), name := some (str "Doe") } (str "f")
    hwf).2.1 0 { _id := str "X", email := str "a@x.com" }
    (Or.inl (by decide)) (by decide) (by decide)
  rw [h]
  decide

/-! ## C4: stored ids across `upsert_full` -/

/-- C4 as stated is false: an incoming id that differs from a stored id only
by surrounding whitespace still matches it, and the in-place update
overwrites the stored id string with the raw incoming one (here `"X"`
becomes `" X"`). -/
theorem C4_counterexample :
    WFBook [{ _id := str "X" }] ∧
    (upsert_full [{ _id := str "X" }] { _id := some (str " X") }
        (str "f")).map (fun c => c._id) = [str " X"] := by
  constructor
  · intro c hc
    simp only [List.mem_singleton] at hc
    subst hc
    decide
  · decide

theorem take_map_set_of_eq {cs : List Contact} {j : Nat} {ex : Contact}
    (g : Contact) (f : Contact → Str) (hget : cs[j]? = some ex)
    (hfe : f g = f ex) :
    ((cs.set j g).map f).take cs.length = cs.map f := by
  rw [List.map_set, hfe, set_same (by simp [List.getElem?_map, hget])]
  have hl : cs.length = (cs.map f).length := by rw [List.length_map]
  rw [hl, List.take_length]

theorem take_map_append (cs : List Contact) (x : Contact) (f : Contact → Str) :
    ((cs ++ [x]).map f).take cs.length = cs.map f := by
  rw [List.map_append]
  have hl : cs.length = (cs.map f).length := by rw [List.length_map]
  rw [hl, List.take_left]

/-- C4 amended.  On a store whose records all have non-empty ids, `upsert_full`
preserves every pre-existing record's id up to whitespace trimming: the
trimmed ids of the first `cs.length` records of the result are exactly the
trimmed ids of `cs`. -/
theorem C4_amended_trimmed_ids_preserved (cs : List Contact)
    (p : PartialContact) (fresh : Str) (hwf : WFBook cs) :
    ((upsert_full cs p fresh).map (fun c => pyStrip c._id)).take cs.length
      = cs.map (fun c => pyStrip c._id) := by
  by_cases hcid : pyStrip (withDefaults p)._id = []
  · by_cases hem : pyStrip (withDefaults p).email = []
    · rw [upsert_full_append_branch (Or.inl hcid) (Or.inl hem)]
      exact take_map_append cs _ _
    · rcases he : findEntry (emailMatch (pyStrip (withDefaults p).email)) cs
        with _ | ⟨j, ex⟩
      · rw [upsert_full_append_branch (Or.inl hcid) (Or.inr he)]
        exact take_map_append cs _ _
      · rw [upsert_full_email_branch (Or.inl hcid) hem he]
        have hget := (findEntry_some_facts he).1
        have hne : ex._id ≠ [] := hwf ex (mem_of_getElemQ hget)
        exact take_map_set_of_eq _ _ hget (by rw [if_neg hne])
  · rcases hi : findEntry (idMatch (pyStrip (withDefaults p)._id)) cs
      with _ | ⟨j, ex⟩
    · by_cases hem : pyStrip (withDefaults p).email = []
      · rw [upsert_full_append_branch (Or.inr hi) (Or.inl hem)]
        exact take_map_append cs _ _
      · rcases he : findEntry (emailMatch (pyStrip (withDefaults p).email)) cs
          with _ | ⟨j, ex⟩
        · rw [upsert_full_append_branch (Or.inr hi) (Or.inr he)]
          exact take_map_append cs _ _
        · rw [upsert_full_email_branch (Or.inr hi) hem he]
          have hget := (findEntry_some_facts he).1
          have hne : ex._id ≠ [] := hwf ex (mem_of_getElemQ hget)
          exact take_map_set_of_eq _ _ hget (by rw [if_neg hne])
    · rw [upsert_full_id_branch hcid hi]
      have hfacts := findEntry_some_facts hi
      have hmatch : pyStrip ex._id = pyStrip (withDefaults p)._id := by
        have := hfacts.2.1
        rw [idMatch, beq_iff_eq] at this
        rw [this, pyStrip_idem]
      exact take_map_set_of_eq _ _ hfacts.1 (by rw [hmatch])

/-- Sample store record with id `X`. -/
def recX : Contact := { _id := str "X" }

/-- Sample incoming record whose id is `X` with a leading space. -/
def incSpaceX : PartialContact := { _id := some (str " X") }

/-- Witness for C4 amended at a concrete store. -/
theorem C4_witness :
    WFBook [recX] ∧
    ((upsert_full [recX] incSpaceX (str "f")).map
        (fun c => pyStrip c._id)).take 1
      = [recX].map (fun c => pyStrip c._id) := by
  have hwf : WFBook [recX] := by
    intro c hc
    simp only [List.mem_singleton] at hc
    subst hc
    decide
  exact ⟨hwf, C4_amended_trimmed_ids_preserved [recX] incSpaceX (str "f") hwf⟩

/-! ## C9: `last_used` across `upsert_full` -/

/-- C9 as stated is false: for an incoming record without `last_used`, the
matched record's previously stored `last_used` value is overwritten with the
empty string (the full-replace `existing.update(incoming)` clobbers it). -/
theorem C9_counterexample :
    ({ _id := some (str "X") } : PartialContact).last_used = none ∧
    ({ _id := str "X", last_used := str "t" } : Contact).last_used = str "t" ∧
    (upsert_full [{ _id := str "X", last_used := str "t" }]
        { _id := some (str "X") } (str "f")).map (fun c => c.last_used)
      = [[]] := by
  refine ⟨rfl, rfl, ?_⟩
  decide

/-- C9 amended.  `upsert_full` treats `last_used` like every other field: a
matched record's `last_used` is overwritten with the incoming value, which is
the empty string when the incoming record does not carry `last_used`. -/
theorem C9_amended_last_used_overwritten (cs : List Contact)
    (p : PartialContact) (fresh : Str) (hl : p.last_used = none) :
    (∀ j ex, pyStrip (withDefaults p)._id ≠ [] →
      findEntry (idMatch (pyStrip (withDefaults p)._id)) cs = some (j, ex) →
      ((upsert_full cs p fresh).map (fun c => c.last_used))[j]? = some []) ∧
    (∀ j ex, (pyStrip (withDefaults p)._id = [] ∨
        findEntry (idMatch (pyStrip (withDefaults p)._id)) cs = none) →
      pyStrip (withDefaults p).email ≠ [] →
      findEntry (emailMatch (pyStrip (withDefaults p).email)) cs = some (j, ex) →
      ((upsert_full cs p fresh).map (fun c => c.last_used))[j]? = some []) := by
  have hlu : (withDefaults p).last_used = [] := by
    simp [withDefaults, hl]
  constructor
  · intro j ex hcid h
    rw [upsert_full_id_branch hcid h, List.map_set]
    have hj : j < cs.length := by
      obtain ⟨hlt, _⟩ := List.getElem?_eq_some.mp (findEntry_some_facts h).1
      exact hlt
    rw [List.getElem?_set_self (by rw [List.length_map]; exact hj), hlu]
  · intro j ex hid hem h
    rw [upsert_full_email_branch hid hem h, List.map_set]
    have hj : j < cs.length := by
      obtain ⟨hlt, _⟩ := List.getElem?_eq_some.mp (findEntry_some_facts h).1
      exact hlt
    rw [List.getElem?_set_self (by rw [List.length_map]; exact hj)]
    simp [hlu]

/-- Sample store record with id `Y`, an email and a `last_used` stamp. -/
def recY : Contact :=
  { _id := str "Y", email := str "a@x.com", last_used := str "2024" }

/-- Sample incoming record carrying only an email. -/
def incMail : PartialContact := { email := some (str "a@x.com") }

/-- Witness for C9 amended at a concrete store. -/
theorem C9_witness :
    incMail.last_used = none ∧
    ((upsert_full [recY] incMail (str "f")).map
        (fun c => c.last_used))[0]? = some [] := by
  refine ⟨rfl, ?_⟩
  exact (C9_amended_last_used_overwritten [recY] incMail (str "f") rfl).2 0
    recY (Or.inl (by decide)) (by decide) (by decide)

/-! ## C2: idempotence of `upsert_full` -/

/-- C2 as stated is false: an incoming record with no id and no email takes
the append branch on every call, so upserting it twice appends two records
while upserting it once appends one. -/
theorem C2_counterexample :
    upsert_full (upsert_full [] ({} : PartialContact) (str "a")) {} (str "b")
      ≠ upsert_full [] ({} : PartialContact) (str "a") := by
  decide

theorem upsert_idem_email_case {cs : List Contact} {p : PartialContact}
    {fresh1 fresh2 : Str} {j : Nat} {ex : Contact} (hwf : WFBook cs)
    (hid : pyStrip (withDefaults p)._id = [] ∨
      findEntry (idMatch (pyStrip (withDefaults p)._id)) cs = none)
    (hem : pyStrip (withDefaults p).email ≠ [])
    (he : findEntry (emailMatch (pyStrip (withDefaults p).email)) cs
      = some (j, ex)) :
    upsert_full (upsert_full cs p fresh1) p fresh2 = upsert_full cs p fresh1 := by
  have hne : ex._id ≠ [] := hwf ex (mem_of_getElemQ (findEntry_some_facts he).1)
  have hstep : upsert_full cs p fresh1
      = cs.set j { withDefaults p with _id := ex._id } := by
    rw [upsert_full_email_branch hid hem he, if_neg hne]
  have hid2 : pyStrip (withDefaults p)._id = [] ∨
      findEntry (idMatch (pyStrip (withDefaults p)._id))
        (cs.set j { withDefaults p with _id := ex._id }) = none := by
    rcases hid with h | h
    · exact Or.inl h
    · refine Or.inr (findEntry_none_set j _ h ?_)
      have hexf : idMatch (pyStrip (withDefaults p)._id) ex = false :=
        (findEntry_eq_none.mp h) ex
          (mem_of_getElemQ (findEntry_some_facts he).1)
      simpa [idMatch] using hexf
  have hmatch : emailMatch (pyStrip (withDefaults p).email)
      { withDefaults p with _id := ex._id } = true := by
    simp only [emailMatch]
    rw [beq_iff_eq, pyStrip_pyLower_pyStrip]
  have he2 : findEntry (emailMatch (pyStrip (withDefaults p).email))
      (cs.set j { withDefaults p with _id := ex._id })
      = some (j, { withDefaults p with _id := ex._id }) :=
    findEntry_set_found _ he hmatch
  rw [hstep, upsert_full_email_branch hid2 hem he2, if_neg hne, List.set_set]

theorem upsert_idem_append_case {cs : List Contact} {p : PartialContact}
    {fresh1 fresh2 : Str} (hf1 : fresh1 ≠ [])
    (hf1id : pyStrip fresh1 ≠ pyStrip (withDefaults p)._id)
    (hid : pyStrip (withDefaults p)._id = [] ∨
      findEntry (idMatch (pyStrip (withDefaults p)._id)) cs = none)
    (hem : pyStrip (withDefaults p).email ≠ [])
    (he : findEntry (emailMatch (pyStrip (withDefaults p).email)) cs = none) :
    upsert_full (upsert_full cs p fresh1) p fresh2 = upsert_full cs p fresh1 := by
  have hstep : upsert_full cs p fresh1
      = cs ++ [{ withDefaults p with _id := fresh1 }] :=
    upsert_full_append_branch hid (Or.inr he)
  have hgf : idMatch (pyStrip (withDefaults p)._id)
      { withDefaults p with _id := fresh1 } = false := by
    simp [idMatch, pyStrip_idem, hf1id]
  have hid2 : pyStrip (withDefaults p)._id = [] ∨
      findEntry (idMatch (pyStrip (withDefaults p)._id))
        (cs ++ [{ withDefaults p with _id := fresh1 }]) = none := by
    rcases hid with h | h
    · exact Or.inl h
    · refine Or.inr ?_
      rw [findEntry_append_one _ h, if_neg (by simp [hgf])]
  have hmatch : emailMatch (pyStrip (withDefaults p).email)
      { withDefaults p with _id := fresh1 } = true := by
    simp only [emailMatch]
    rw [beq_iff_eq, pyStrip_pyLower_pyStrip]
  have he2 : findEntry (emailMatch (pyStrip (withDefaults p).email))
      (cs ++ [{ withDefaults p with _id := fresh1 }])
      = some (cs.length, { withDefaults p with _id := fresh1 }) := by
    rw [findEntry_append_one _ he, if_pos (by simp [hmatch])]
  rw [hstep, upsert_full_email_branch hid2 hem he2, if_neg hf1,
    set_same (List.getElem?_concat_length cs _)]

/-- C2 amended.  `upsert_full` is idempotent whenever the incoming record
carries a non-empty trimmed email, or its non-empty trimmed id matches an
existing record (with a well-formed store and a genuinely fresh first id):
the second call resolves to the record written by the first call and
rewrites it with the same data.  With all identity fields empty, each call
appends a new record, which is the content of the counterexample. -/
theorem C2_amended_upsert_idempotent (cs : List Contact) (p : PartialContact)
    (fresh1 fresh2 : Str) (hwf : WFBook cs) (hf1 : fresh1 ≠ [])
    (hf1id : pyStrip fresh1 ≠ pyStrip (withDefaults p)._id)
    (hkey : pyStrip (withDefaults p).email ≠ [] ∨
      (pyStrip (withDefaults p)._id ≠ [] ∧
        findEntry (idMatch (pyStrip (withDefaults p)._id)) cs ≠ none)) :
    upsert_full (upsert_full cs p fresh1) p fresh2 = upsert_full cs p fresh1 := by
  by_cases hcid : pyStrip (withDefaults p)._id = []
  · have hem : pyStrip (withDefaults p).email ≠ [] := by
      rcases hkey with h | h
      · exact h
      · exact absurd hcid h.1
    rcases he : findEntry (emailMatch (pyStrip (withDefaults p).email)) cs
      with _ | ⟨j, ex⟩
    · exact upsert_idem_append_case hf1 hf1id (Or.inl hcid) hem he
    · exact upsert_idem_email_case hwf (Or.inl hcid) hem he
  · rcases hi : findEntry (idMatch (pyStrip (withDefaults p)._id)) cs
      with _ | ⟨j, ex⟩
    · have hem : pyStrip (withDefaults p).email ≠ [] := by
        rcases hkey with h | h
        · exact h
        · exact absurd hi h.2
      rcases he : findEntry (emailMatch (pyStrip (withDefaults p).email)) cs
        with _ | ⟨j, ex⟩
      · exact upsert_idem_append_case hf1 hf1id (Or.inr hi) hem he
      · exact upsert_idem_email_case hwf (Or.inr hi) hem he
    · have hmatch : idMatch (pyStrip (withDefaults p)._id) (withDefaults p)
        = true := by
        simp [idMatch, pyStrip_idem]
      have hi2 : findEntry (idMatch (pyStrip (withDefaults p)._id))
          (cs.set j (withDefaults p)) = some (j, withDefaults p) :=
        findEntry_set_found _ hi hmatch
      rw [upsert_full_id_branch hcid hi,
        upsert_full_id_branch hcid hi2, List.set_set]

/-- Witness for C2 amended: upserting an email-carrying record twice into the
empty store equals upserting it once. -/
theorem C2_witness :
    upsert_full (upsert_full [] incMail (str "u1")) incMail (str "u2")
      = upsert_full [] incMail (str "u1") := by
  refine C2_amended_upsert_idempotent [] incMail (str "u1") (str "u2")
    ?_ (by decide) (by decide) (Or.inl (by decide))
  intro c hc
  simp at hc

/-! ## C10: CSV import of a row with empty mapped cells

Model of the row-projection loop of `AddressBookWindow.import_csv`: the
header mapping assigns each canonical key an optional source column, a row
maps a column name to its optional cell, every mapped cell is read through
`_safe_strip`, and a row is kept whenever the resulting dict is non-empty
(which only depends on the mapping). -/

/-- Result of the `pick`-based header mapping: for each canonical key, the
source column chosen for it, if any. -/
structure CsvMapping where
  vorname : Option Str := none
  name : Option Str := none
  strasse : Option Str := none
  plz : Option Str := none
  ort : Option Str := none
  mobile : Option Str := none
  festnetz : Option Str := none
  email : Option Str := none
  geburtsdatum : Option Str := none
  webseite : Option Str := none
  deriving DecidableEq, Repr

/-- Python truthiness of the mapping-derived dict for a row: some key mapped. -/
def mappingNonempty (m : CsvMapping) : Bool :=
  m.vorname.isSome || m.name.isSome || m.strasse.isSome || m.plz.isSome ||
  m.ort.isSome || m.mobile.isSome || m.festnetz.isSome || m.email.isSome ||
  m.geburtsdatum.isSome || m.webseite.isSome

/-- The per-row projection `c[key] = _safe_strip(row.get(src))` for each
mapped key. -/
def rowToContact (m : CsvMapping) (row : Str → Option Str) : PartialContact where
  vorname := m.vorname.map (fun src => _safe_strip (row src))
  name := m.name.map (fun src => _safe_strip (row src))
  strasse := m.strasse.map (fun src => _safe_strip (row src))
  plz := m.plz.map (fun src => _safe_strip (row src))
  ort := m.ort.map (fun src => _safe_strip (row src))
  mobile := m.mobile.map (fun src => _safe_strip (row src))
  festnetz := m.festnetz.map (fun src => _safe_strip (row src))
  email := m.email.map (fun src => _safe_strip (row src))
  geburtsdatum := m.geburtsdatum.map (fun src => _safe_strip (row src))
  webseite := m.webseite.map (fun src => _safe_strip (row src))

/-- The filtering `if c: contacts.append(c)` applied to each data row. -/
def csvRowRecords (m : CsvMapping) (rows : List (Str → Option Str)) :
    List PartialContact :=
  rows.filterMap (fun row =>
    let c := rowToContact m row
    if curNonempty c then some c else none)

/-- C10.  When at least one header maps to a canonical field, every data row
is kept (even one whose mapped cells are all empty), and a row whose mapped
cells all strip to the empty string takes the append branch of
`upsert_full`: the store grows by one fresh-id record on every import. -/
theorem C10_csv_empty_row_appends (m : CsvMapping) (row : Str → Option Str)
    (cs : List Contact) (fresh : Str) (hm : mappingNonempty m = true)
    (hblank : withDefaults (rowToContact m row) = DEFAULT_CONTACT) :
    curNonempty (rowToContact m row) = true ∧
    upsert_full cs (rowToContact m row) fresh
      = cs ++ [{ DEFAULT_CONTACT with _id := fresh }] ∧
    (upsert_full cs (rowToContact m row) fresh).length = cs.length + 1 := by
  have hcur : curNonempty (rowToContact m row) = true := by
    simp only [curNonempty, rowToContact, Option.isSome_map]
    simpa [mappingNonempty] using hm
  have hcid : pyStrip (withDefaults (rowToContact m row))._id = [] := by
    rw [hblank]
    rfl
  have hem : pyStrip (withDefaults (rowToContact m row)).email = [] := by
    rw [hblank]
    rfl
  have happ := @upsert_full_append_branch cs (rowToContact m row) fresh
    (Or.inl hcid) (Or.inl hem)
  rw [hblank] at happ
  exact ⟨hcur, happ, by rw [happ]; simp⟩

/-- Sample header mapping: only an email column is recognized. -/
def mapMailOnly : CsvMapping := { email := some (str "mail") }

/-- Sample data row whose only cell is whitespace. -/
def rowBlank : Str → Option Str := fun _ => some (str "  ")

/-- Witness for C10 at a concrete mapping, row, and store. -/
theorem C10_witness :
    mappingNonempty mapMailOnly = true ∧
    withDefaults (rowToContact mapMailOnly rowBlank) = DEFAULT_CONTACT ∧
    upsert_full [] (rowToContact mapMailOnly rowBlank) (str "u7")
      = [{ DEFAULT_CONTACT with _id := str "u7" }] := by
  refine ⟨by decide, by decide, ?_⟩
  exact (C10_csv_empty_row_appends mapMailOnly rowBlank [] (str "u7")
    (by decide) (by decide)).2.1

/-! ## The vCard decoder (`_unfold_vcard_lines`, `parse_vcard_contacts`) -/

/-- Python `raw.replace("\r\n", "\n").replace("\r", "\n")`. -/
def normNl : Str → Str
  | [] => []
  | [c] => if c = '\r' then ['\n'] else [c]
  | c :: d :: rest =>
    if c = '\r' then
      if d = '\n' then '\n' :: normNl rest
      else '\n' :: normNl (d :: rest)
    else c :: normNl (d :: rest)

/-- Does the line start with a space or a tab (`ln.startswith((" ", "\t"))`)? -/
def startsWS : Str → Bool
  | [] => false
  | c :: _ => c = ' ' || c = '\t'

/-- The accumulator loop of `_unfold_vcard_lines`, with the output kept
reversed. -/
def unfoldAux : List Str → List Str → List Str
  | [], acc => acc.reverse
  | ln :: rest, acc =>
    if ln.isEmpty then unfoldAux rest ([] :: acc)
    else if startsWS ln then
      match acc with
      | [] => unfoldAux rest (ln :: acc)
      | prev :: acc2 => unfoldAux rest ((prev ++ ln.tail) :: acc2)
    else unfoldAux rest (ln :: acc)

/-- Function `_unfold_vcard_lines`: normalize line endings, split on newlines,
fold continuation lines into their predecessor. -/
def _unfold_vcard_lines (raw : Str) : List Str :=
  unfoldAux (splitChar '\n' (normNl raw)) []

/-- Python `s.split()` (split on whitespace runs, no empty words). -/
def wordsAux : Str → Str → List Str
  | [], acc => if acc.isEmpty then [] else [acc.reverse]
  | c :: rest, acc =>
    if isWS c then
      if acc.isEmpty then wordsAux rest [] else acc.reverse :: wordsAux rest []
    else wordsAux rest (c :: acc)

/-- Python `s.split()` with no separator argument. -/
def pyWords (s : Str) : List Str := wordsAux s []

/-- Python `" ".join(ws)`. -/
def joinSpace : List Str → Str
  | [] => []
  | [w] => w
  | w :: ws => w ++ ' ' :: joinSpace ws

/-- Python `params.replace("TYPE=", "")`: remove every occurrence,
scanning left to right. -/
def stripTypeEq : Str → Str
  | 'T' :: 'Y' :: 'P' :: 'E' :: '=' :: rest => stripTypeEq rest
  | c :: rest => c :: stripTypeEq rest
  | [] => []

/-- Handler for the `N` property (source lines 95-99). -/
def applyN (cur : PartialContact) (value : Str) : PartialContact :=
  let parts := splitChar ';' value
  { cur with
    name := some (if parts.length > 0 then pyStrip (parts.headD []) else []),
    vorname := some (if parts.length > 1 then pyStrip (parts.getD 1 [])
      else cur.vorname.getD []) }

/-- Handler for the `FN` property (source lines 100-109). -/
def applyFN (cur : PartialContact) (value : Str) : PartialContact :=
  if falsy cur.name = true ∧ ¬ (pyStrip value).isEmpty then
    match pyWords (pyStrip value) with
    | [] => cur
    | [b] => { cur with name := some b }
    | bs => { cur with vorname := some (joinSpace bs.dropLast), name := some (bs.getLastD []) }
  else cur

/-- Handler for the `EMAIL` property (source lines 110-112). -/
def applyEMAIL (cur : PartialContact) (value : Str) : PartialContact :=
  if falsy cur.email then { cur with email := some (pyLower (pyStrip value)) }
  else cur

/-- Handler for the `TEL` property (source lines 113-132). -/
def applyTEL (cur : PartialContact) (left_up value : Str) : PartialContact :=
  let params := match splitFirst ';' left_up with
    | some pr => pr.2
    | none => []
  let pcore := (stripTypeEq params).map (fun ch => if ch = ',' then ';' else ch)
  let pset := ((splitChar ';' pcore).map pyStrip).filter (fun x => ¬ x.isEmpty)
  let tel := pyStrip value
  if tel.isEmpty then cur
  else if pset.contains (str "CELL") || pset.contains (str "MOBILE") then
    if falsy cur.mobile then { cur with mobile := some tel } else cur
  else if pset.contains (str "HOME") || pset.contains (str "VOICE") then
    if falsy cur.festnetz then { cur with festnetz := some tel } else cur
  else
    if falsy cur.festnetz then { cur with festnetz := some tel }
    else if falsy cur.mobile then { cur with mobile := some tel }
    else cur

/-- Handler for the `ADR` property (source lines 133-142). -/
def applyADR (cur : PartialContact) (value : Str) : PartialContact :=
  let parts := splitChar ';' value
  let cur2 := if parts.length ≥ 3 ∧ falsy cur.strasse = true then
      { cur with strasse := some (pyStrip (parts.getD 2 [])) } else cur
  if parts.length ≥ 6 then
    let cur3 := if falsy cur2.ort then
        { cur2 with ort := some (pyStrip (parts.getD 3 [])) } else cur2
    if falsy cur3.plz then
      { cur3 with plz := some (pyStrip (parts.getD 5 [])) } else cur3
  else cur2

/-- Handler for `URL` / `WEB` / `WEBSITE` (source lines 143-145). -/
def applyURL (cur : PartialContact) (value : Str) : PartialContact :=
  if falsy cur.webseite then { cur with webseite := some (pyStrip value) }
  else cur

/-- Handler for `BDAY` / `BIRTHDAY` (source lines 146-148). -/
def applyBDAY (cur : PartialContact) (value : Str) : PartialContact :=
  if falsy cur.geburtsdatum then { cur with geburtsdatum := some (pyStrip value) }
  else cur

/-- The property dispatch inside an open card (source lines 86-149): a line
with no `:` is ignored, otherwise the upper-cased name before the first `;`
of the left part selects the field mapping. -/
def applyProp (cur : PartialContact) (ln : Str) : PartialContact :=
  match splitFirst ':' ln with
  | none => cur
  | some (left, value) =>
    let left_up := pyUpper left
    let prop := (splitChar ';' left_up).headD []
    if prop = str "N" then applyN cur value
    else if prop = str "FN" then applyFN cur value
    else if prop = str "EMAIL" then applyEMAIL cur value
    else if prop = str "TEL" then applyTEL cur left_up value
    else if prop = str "ADR" then applyADR cur value
    else if prop = str "URL" ∨ prop = str "WEB" ∨ prop = str "WEBSITE" then
      applyURL cur value
    else if prop = str "BDAY" ∨ prop = str "BIRTHDAY" then applyBDAY cur value
    else cur

/-- Parser state: inside a card?, the per-card dict, the emitted records. -/
structure PState where
  inCard : Bool := false
  cur : PartialContact := {}
  acc : List Contact := []
  deriving DecidableEq, Repr

/-- Local function `commit`: append `{**DEFAULT_CONTACT, **cur}` when the
dict is non-empty. -/
def commitOf (cur : PartialContact) : List Contact :=
  if curNonempty cur then [withDefaults cur] else []

/-- One iteration of the main loop of `parse_vcard_contacts`. -/
def procLine (st : PState) (raw : Str) : PState :=
  let ln := pyStrip raw
  if ln.isEmpty then st
  else
    let up := pyUpper ln
    if up = str "BEGIN:VCARD" then { st with inCard := true, cur := {} }
    else if up = str "END:VCARD" then
      if st.inCard then
        { inCard := false, cur := {}, acc := st.acc ++ commitOf st.cur }
      else { st with inCard := false }
    else if st.inCard = false then st
    else { st with cur := applyProp st.cur ln }

/-- Function `parse_vcard_contacts`. -/
def parse_vcard_contacts (text : Str) : List Contact :=
  let st := (_unfold_vcard_lines text).foldl procLine {}
  if st.inCard then st.acc ++ commitOf st.cur else st.acc

/-! ## Field-preservation lemmas for the property handlers -/

theorem splitChar_ne_nil (sep : Char) (s : Str) : splitChar sep s ≠ [] := by
  cases s with
  | nil => simp [splitChar]
  | cons c rest =>
    simp only [splitChar]
    by_cases hc : c = sep
    · simp [hc]
    · simp only [hc, if_false]
      rcases h : splitChar sep rest with _ | ⟨p, ps⟩
      · simp
      · simp

theorem falsy_false_of_nonempty {o : Option Str} {v : Str} (hv : o = some v)
    (hne : v ≠ []) : falsy o = false := by
  simp [falsy, hv, List.isEmpty_iff, hne]

theorem applyN_other (cur : PartialContact) (value : Str) :
    (applyN cur value).email = cur.email ∧
    (applyN cur value).mobile = cur.mobile ∧
    (applyN cur value).festnetz = cur.festnetz ∧
    (applyN cur value).strasse = cur.strasse ∧
    (applyN cur value).plz = cur.plz ∧
    (applyN cur value).ort = cur.ort ∧
    (applyN cur value).webseite = cur.webseite ∧
    (applyN cur value).geburtsdatum = cur.geburtsdatum :=
  ⟨rfl, rfl, rfl, rfl, rfl, rfl, rfl, rfl⟩

theorem applyFN_other (cur : PartialContact) (value : Str) :
    (applyFN cur value).email = cur.email ∧
    (applyFN cur value).mobile = cur.mobile ∧
    (applyFN cur value).festnetz = cur.festnetz ∧
    (applyFN cur value).strasse = cur.strasse ∧
    (applyFN cur value).plz = cur.plz ∧
    (applyFN cur value).ort = cur.ort ∧
    (applyFN cur value).webseite = cur.webseite ∧
    (applyFN cur value).geburtsdatum = cur.geburtsdatum := by
  simp only [applyFN]
  split_ifs
  · split <;> exact ⟨rfl, rfl, rfl, rfl, rfl, rfl, rfl, rfl⟩
  · exact ⟨rfl, rfl, rfl, rfl, rfl, rfl, rfl, rfl⟩

theorem applyEMAIL_other (cur : PartialContact) (value : Str) :
    (applyEMAIL cur value).mobile = cur.mobile ∧
    (applyEMAIL cur value).festnetz = cur.festnetz ∧
    (applyEMAIL cur value).strasse = cur.strasse ∧
    (applyEMAIL cur value).plz = cur.plz ∧
    (applyEMAIL cur value).ort = cur.ort ∧
    (applyEMAIL cur value).webseite = cur.webseite ∧
    (applyEMAIL cur value).geburtsdatum = cur.geburtsdatum ∧
    (applyEMAIL cur value).name = cur.name ∧
    (applyEMAIL cur value).vorname = cur.vorname := by
  simp only [applyEMAIL]
  split_ifs <;> exact ⟨rfl, rfl, rfl, rfl, rfl, rfl, rfl, rfl, rfl⟩

theorem applyEMAIL_keep {cur : PartialContact} {v : Str} (value : Str)
    (hv : cur.email = some v) (hne : v ≠ []) :
    (applyEMAIL cur value).email = some v := by
  simp only [applyEMAIL, falsy_false_of_nonempty hv hne]
  simp [hv]

theorem applyTEL_other (cur : PartialContact) (lu value : Str) :
    (applyTEL cur lu value).email = cur.email ∧
    (applyTEL cur lu value).strasse = cur.strasse ∧
    (applyTEL cur lu value).plz = cur.plz ∧
    (applyTEL cur lu value).ort = cur.ort ∧
    (applyTEL cur lu value).webseite = cur.webseite ∧
    (applyTEL cur lu value).geburtsdatum = cur.geburtsdatum ∧
    (applyTEL cur lu value).name = cur.name ∧
    (applyTEL cur lu value).vorname = cur.vorname := by
  simp only [applyTEL]
  split_ifs <;> exact ⟨rfl, rfl, rfl, rfl, rfl, rfl, rfl, rfl⟩

theorem applyTEL_keep_mobile {cur : PartialContact} {v : Str} (lu value : Str)
    (hv : cur.mobile = some v) (hne : v ≠ []) :
    (applyTEL cur lu value).mobile = some v := by
  simp only [applyTEL, falsy_false_of_nonempty hv hne]
  split_ifs <;> first
    | (exfalso; assumption)
    | simp [hv]

theorem applyTEL_keep_festnetz {cur : PartialContact} {v : Str} (lu value : Str)
    (hv : cur.festnetz = some v) (hne : v ≠ []) :
    (applyTEL cur lu value).festnetz = some v := by
  simp only [applyTEL, falsy_false_of_nonempty hv hne]
  split_ifs <;> first
    | (exfalso; assumption)
    | simp [hv]

theorem applyADR_other (cur : PartialContact) (value : Str) :
    (applyADR cur value).email = cur.email ∧
    (applyADR cur value).mobile = cur.mobile ∧
    (applyADR cur value).festnetz = cur.festnetz ∧
    (applyADR cur value).webseite = cur.webseite ∧
    (applyADR cur value).geburtsdatum = cur.geburtsdatum ∧
    (applyADR cur value).name = cur.name ∧
    (applyADR cur value).vorname = cur.vorname := by
  simp only [applyADR]
  split_ifs <;> exact ⟨rfl, rfl, rfl, rfl, rfl, rfl, rfl⟩

theorem applyADR_keep_strasse {cur : PartialContact} {v : Str} (value : Str)
    (hv : cur.strasse = some v) (hne : v ≠ []) :
    (applyADR cur value).strasse = some v := by
  simp only [applyADR, falsy_false_of_nonempty hv hne]
  split_ifs <;> simp_all

theorem applyADR_keep_ort {cur : PartialContact} {v : Str} (value : Str)
    (hv : cur.ort = some v) (hne : v ≠ []) :
    (applyADR cur value).ort = some v := by
  simp only [applyADR]
  split_ifs <;> simp_all [falsy, List.isEmpty_iff]

theorem applyADR_keep_plz {cur : PartialContact} {v : Str} (value : Str)
    (hv : cur.plz = some v) (hne : v ≠ []) :
    (applyADR cur value).plz = some v := by
  simp only [applyADR]
  split_ifs <;> simp_all [falsy, List.isEmpty_iff]

theorem applyURL_other (cur : PartialContact) (value : Str) :
    (applyURL cur value).email = cur.email ∧
    (applyURL cur value).mobile = cur.mobile ∧
    (applyURL cur value).festnetz = cur.festnetz ∧
    (applyURL cur value).strasse = cur.strasse ∧
    (applyURL cur value).plz = cur.plz ∧
    (applyURL cur value).ort = cur.ort ∧
    (applyURL cur value).geburtsdatum = cur.geburtsdatum ∧
    (applyURL cur value).name = cur.name ∧
    (applyURL cur value).vorname = cur.vorname := by
  simp only [applyURL]
  split_ifs <;> exact ⟨rfl, rfl, rfl, rfl, rfl, rfl, rfl, rfl, rfl⟩

theorem applyURL_keep {cur : PartialContact} {v : Str} (value : Str)
    (hv : cur.webseite = some v) (hne : v ≠ []) :
    (applyURL cur value).webseite = some v := by
  simp only [applyURL, falsy_false_of_nonempty hv hne]
  simp [hv]

theorem applyBDAY_other (cur : PartialContact) (value : Str) :
    (applyBDAY cur value).email = cur.email ∧
    (applyBDAY cur value).mobile = cur.mobile ∧
    (applyBDAY cur value).festnetz = cur.festnetz ∧
    (applyBDAY cur value).strasse = cur.strasse ∧
    (applyBDAY cur value).plz = cur.plz ∧
    (applyBDAY cur value).ort = cur.ort ∧
    (applyBDAY cur value).webseite = cur.webseite ∧
    (applyBDAY cur value).name = cur.name ∧
    (applyBDAY cur value).vorname = cur.vorname := by
  simp only [applyBDAY]
  split_ifs <;> exact ⟨rfl, rfl, rfl, rfl, rfl, rfl, rfl, rfl, rfl⟩

theorem applyBDAY_keep {cur : PartialContact} {v : Str} (value : Str)
    (hv : cur.geburtsdatum = some v) (hne : v ≠ []) :
    (applyBDAY cur value).geburtsdatum = some v := by
  simp only [applyBDAY, falsy_false_of_nonempty hv hne]
  simp [hv]

/-! ## C6: field-mapping precedence within a card -/

/-- C6 as stated is false: a second `N` line in the same card overwrites
`last_name` and `first_name` unconditionally, replacing values already set by
an earlier `N`. -/
theorem C6_counterexample :
    parse_vcard_contacts (str "BEGIN:VCARD\nN:A;B;;;\nN:C;D;;;\nEND:VCARD\n")
      = [{ name := str "C", vorname := str "D" }] ∧
    applyProp { name := some (str "A"), vorname := some (str "B") }
        (str "N:C;D;;;")
      = { name := some (str "C"), vorname := some (str "D") } := by
  constructor <;> decide

set_option maxHeartbeats 1600000 in
/-- C6 amended.  First-non-empty-value-wins holds for the eight target
fields email, mobile, festnetz (home phone), strasse, plz, ort, webseite and
geburtsdatum: once such a field holds a non-empty value, no later property
line of the card changes it.  It does not hold for `last_name` /
`first_name`: an `N` line always overwrites `last_name` (and, when it has at
least two components, `first_name`) regardless of earlier values. -/
theorem C6_amended_first_nonempty_wins (cur : PartialContact) (ln : Str) :
    (∀ v, cur.email = some v → v ≠ [] → (applyProp cur ln).email = some v) ∧
    (∀ v, cur.mobile = some v → v ≠ [] → (applyProp cur ln).mobile = some v) ∧
    (∀ v, cur.festnetz = some v → v ≠ [] →
      (applyProp cur ln).festnetz = some v) ∧
    (∀ v, cur.strasse = some v → v ≠ [] →
      (applyProp cur ln).strasse = some v) ∧
    (∀ v, cur.plz = some v → v ≠ [] → (applyProp cur ln).plz = some v) ∧
    (∀ v, cur.ort = some v → v ≠ [] → (applyProp cur ln).ort = some v) ∧
    (∀ v, cur.webseite = some v → v ≠ [] →
      (applyProp cur ln).webseite = some v) ∧
    (∀ v, cur.geburtsdatum = some v → v ≠ [] →
      (applyProp cur ln).geburtsdatum = some v) ∧
    (∀ left value, splitFirst ':' ln = some (left, value) →
      (splitChar ';' (pyUpper left)).headD [] = str "N" →
      (applyProp cur ln).name
        = some (pyStrip ((splitChar ';' value).headD []))) := by
  refine ⟨?_, ?_, ?_, ?_, ?_, ?_, ?_, ?_, ?_⟩
  · intro v hv hne
    simp only [applyProp]
    rcases hsp : splitFirst ':' ln with _ | ⟨left, value⟩
    · exact hv
    · simp only []
      split_ifs
      · exact hv
      · exact (applyFN_other cur value).1.trans hv
      · exact applyEMAIL_keep value hv hne
      · exact (applyTEL_other cur _ value).1.trans hv
      · exact (applyADR_other cur value).1.trans hv
      · exact (applyURL_other cur value).1.trans hv
      · exact (applyBDAY_other cur value).1.trans hv
      · exact hv
  · intro v hv hne
    simp only [applyProp]
    rcases hsp : splitFirst ':' ln with _ | ⟨left, value⟩
    · exact hv
    · simp only []
      split_ifs
      · exact hv
      · exact (applyFN_other cur value).2.1.trans hv
      · exact (applyEMAIL_other cur value).1.trans hv
      · exact applyTEL_keep_mobile _ value hv hne
      · exact (applyADR_other cur value).2.1.trans hv
      · exact (applyURL_other cur value).2.1.trans hv
      · exact (applyBDAY_other cur value).2.1.trans hv
      · exact hv
  · intro v hv hne
    simp only [applyProp]
    rcases hsp : splitFirst ':' ln with _ | ⟨left, value⟩
    · exact hv
    · simp only []
      split_ifs
      · exact hv
      · exact (applyFN_other cur value).2.2.1.trans hv
      · exact (applyEMAIL_other cur value).2.1.trans hv
      · exact applyTEL_keep_festnetz _ value hv hne
      · exact (applyADR_other cur value).2.2.1.trans hv
      · exact (applyURL_other cur value).2.2.1.trans hv
      · exact (applyBDAY_other cur value).2.2.1.trans hv
      · exact hv
  · intro v hv hne
    simp only [applyProp]
    rcases hsp : splitFirst ':' ln with _ | ⟨left, value⟩
    · exact hv
    · simp only []
      split_ifs
      · exact hv
      · exact (applyFN_other cur value).2.2.2.1.trans hv
      · exact (applyEMAIL_other cur value).2.2.1.trans hv
      · exact (applyTEL_other cur _ value).2.1.trans hv
      · exact applyADR_keep_strasse value hv hne
      · exact (applyURL_other cur value).2.2.2.1.trans hv
      · exact (applyBDAY_other cur value).2.2.2.1.trans hv
      · exact hv
  · intro v hv hne
    simp only [applyProp]
    rcases hsp : splitFirst ':' ln with _ | ⟨left, value⟩
    · exact hv
    · simp only []
      split_ifs
      · exact hv
      · exact (applyFN_other cur value).2.2.2.2.1.trans hv
      · exact (applyEMAIL_other cur value).2.2.2.1.trans hv
      · exact (applyTEL_other cur _ value).2.2.1.trans hv
      · exact applyADR_keep_plz value hv hne
      · exact (applyURL_other cur value).2.2.2.2.1.trans hv
      · exact (applyBDAY_other cur value).2.2.2.2.1.trans hv
      · exact hv
  · intro v hv hne
    simp only [applyProp]
    rcases hsp : splitFirst ':' ln with _ | ⟨left, value⟩
    · exact hv
    · simp only []
      split_ifs
      · exact hv
      · exact (applyFN_other cur value).2.2.2.2.2.1.trans hv
      · exact (applyEMAIL_other cur value).2.2.2.2.1.trans hv
      · exact (applyTEL_other cur _ value).2.2.2.1.trans hv
      · exact applyADR_keep_ort value hv hne
      · exact (applyURL_other cur value).2.2.2.2.2.1.trans hv
      · exact (applyBDAY_other cur value).2.2.2.2.2.1.trans hv
      · exact hv
  · intro v hv hne
    simp only [applyProp]
    rcases hsp : splitFirst ':' ln with _ | ⟨left, value⟩
    · exact hv
    · simp only []
      split_ifs
      · exact hv
      · exact (applyFN_other cur value).2.2.2.2.2.2.1.trans hv
      · exact (applyEMAIL_other cur value).2.2.2.2.2.1.trans hv
      · exact (applyTEL_other cur _ value).2.2.2.2.1.trans hv
      · exact (applyADR_other cur value).2.2.2.1.trans hv
      · exact applyURL_keep value hv hne
      · exact (applyBDAY_other cur value).2.2.2.2.2.2.1.trans hv
      · exact hv
  · intro v hv hne
    simp only [applyProp]
    rcases hsp : splitFirst ':' ln with _ | ⟨left, value⟩
    · exact hv
    · simp only []
      split_ifs
      · exact hv
      · exact (applyFN_other cur value).2.2.2.2.2.2.2.trans hv
      · exact (applyEMAIL_other cur value).2.2.2.2.2.2.1.trans hv
      · exact (applyTEL_other cur _ value).2.2.2.2.2.1.trans hv
      · exact (applyADR_other cur value).2.2.2.2.1.trans hv
      · exact (applyURL_other cur value).2.2.2.2.2.2.1.trans hv
      · exact applyBDAY_keep value hv hne
      · exact hv
  · intro left value hsp hprop
    simp only [applyProp, hsp]
    rw [if_pos hprop]
    simp only [applyN]
    have hlen : (splitChar ';' value).length > 0 :=
      List.length_pos.mpr (splitChar_ne_nil ';' value)
    rw [if_pos hlen]

/-- Witness for C6 amended: an `EMAIL` line does not overwrite an email
already collected. -/
theorem C6_witness :
    (applyProp { email := some (str "a@x.com") }
      (str "EMAIL:b@y.com")).email = some (str "a@x.com") := by
  exact (C6_amended_first_nonempty_wins { email := some (str "a@x.com") }
    (str "EMAIL:b@y.com")).1 (str "a@x.com") rfl (by decide)

/-! ## C7: one record per card

The structural content of the decoder loop: rendering a sequence of cards
(each a list of property lines) and parsing the rendered text yields the
per-card commits, in card order. -/

theorem normNl_id : ∀ {l : Str}, '\r' ∉ l → normNl l = l := by
  intro l
  induction l with
  | nil => intro _; rfl
  | cons c rest ih =>
    intro h
    have hc : c ≠ '\r' := fun e => h (by simp [e])
    have hr : '\r' ∉ rest := fun e => h (by simp [e])
    cases rest with
    | nil => simp [normNl, hc]
    | cons d rest2 =>
      simp only [normNl, if_neg hc]
      rw [ih hr]

theorem splitChar_append_cons {sep : Char} {a : Str} (b : Str)
    (ha : sep ∉ a) : splitChar sep (a ++ sep :: b) = a :: splitChar sep b := by
  induction a with
  | nil => simp [splitChar]
  | cons c a2 ih =>
    have hc : c ≠ sep := fun e => ha (by simp [e])
    have ha2 : sep ∉ a2 := fun e => ha (by simp [e])
    simp only [List.cons_append, splitChar, if_neg hc, List.append_eq]
    rw [ih ha2]

/-- Join lines with a trailing newline after each (the shape produced by the
encoder's per-line writes). -/
def joinNl (ls : List Str) : Str := (ls.map (fun l => l ++ ['\n'])).flatten

theorem splitChar_joinNl : ∀ {ls : List Str}, (∀ l ∈ ls, '\n' ∉ l) →
    splitChar '\n' (joinNl ls) = ls ++ [[]] := by
  intro ls
  induction ls with
  | nil => intro _; rfl
  | cons l ls2 ih =>
    intro h
    have hl : '\n' ∉ l := h l (by simp)
    have hl2 : ∀ x ∈ ls2, '\n' ∉ x := fun x hx => h x (by simp [hx])
    have : joinNl (l :: ls2) = l ++ '\n' :: joinNl ls2 := by
      simp [joinNl]
    rw [this, splitChar_append_cons _ hl, ih hl2]
    rfl

theorem unfold_id : ∀ {ls : List Str}, (∀ l ∈ ls, startsWS l = false) →
    ∀ acc, unfoldAux ls acc = acc.reverse ++ ls := by
  intro ls
  induction ls with
  | nil => intro _ acc; simp [unfoldAux]
  | cons ln rest ih =>
    intro h acc
    have hln : startsWS ln = false := h ln (by simp)
    have hrest : ∀ l ∈ rest, startsWS l = false := fun l hl => h l (by simp [hl])
    by_cases he : ln.isEmpty
    · have : ln = [] := by simpa [List.isEmpty_iff] using he
      subst this
      simp only [unfoldAux, List.isEmpty_nil, if_pos]
      rw [ih hrest ([] :: acc)]
      simp
    · simp only [unfoldAux, he, if_false, Bool.false_eq_true, hln]
      rw [ih hrest (ln :: acc)]
      simp

/-- One in-card line of the main loop: strip, skip when empty, else apply
the property dispatch. -/
def propStep (cur : PartialContact) (raw : Str) : PartialContact :=
  let ln := pyStrip raw
  if ln.isEmpty then cur else applyProp cur ln

/-- The logical lines of one rendered card. -/
def cardLines (props : List Str) : List Str :=
  str "BEGIN:VCARD" :: props ++ [str "END:VCARD"]

/-- Render one card as text, one line per property. -/
def renderCard (props : List Str) : Str := joinNl (cardLines props)

/-- A property line that is safe to place inside a card: no embedded line
breaks, no leading whitespace (which would fold it into the previous line),
and not spelling a card delimiter. -/
abbrev GoodLine (p : Str) : Prop :=
  ('\n' ∉ p) ∧ ('\r' ∉ p) ∧ startsWS p = false ∧
  pyUpper (pyStrip p) ≠ str "BEGIN:VCARD" ∧
  pyUpper (pyStrip p) ≠ str "END:VCARD"

theorem procLine_begin (st : PState) :
    procLine st (str "BEGIN:VCARD") = { st with inCard := true, cur := {} } := rfl

theorem procLine_end_in (cur : PartialContact) (acc : List Contact) :
    procLine ⟨true, cur, acc⟩ (str "END:VCARD")
      = ⟨false, {}, acc ++ commitOf cur⟩ := rfl

theorem procLine_empty (st : PState) : procLine st [] = st := rfl

theorem procLine_prop (cur : PartialContact) (acc : List Contact) (p : Str)
    (hg : GoodLine p) :
    procLine ⟨true, cur, acc⟩ p = ⟨true, propStep cur p, acc⟩ := by
  obtain ⟨-, -, -, hb, he⟩ := hg
  simp only [procLine, propStep]
  by_cases hemp : (pyStrip p).isEmpty
  · simp [hemp]
  · simp [hemp, hb, he]

theorem propsFold : ∀ (props : List Str), (∀ p ∈ props, GoodLine p) →
    ∀ (cur : PartialContact) (acc : List Contact),
    List.foldl procLine ⟨true, cur, acc⟩ props
      = ⟨true, props.foldl propStep cur, acc⟩ := by
  intro props
  induction props with
  | nil => intro _ cur acc; rfl
  | cons p rest ih =>
    intro h cur acc
    have hp : GoodLine p := h p (by simp)
    have hr : ∀ q ∈ rest, GoodLine q := fun q hq => h q (by simp [hq])
    simp only [List.foldl_cons, procLine_prop cur acc p hp, ih hr]

theorem cardFold (props : List Str) (hg : ∀ p ∈ props, GoodLine p)
    (cur0 : PartialContact) (acc : List Contact) :
    List.foldl procLine ⟨false, cur0, acc⟩ (cardLines props)
      = ⟨false, {}, acc ++ commitOf (props.foldl propStep {})⟩ := by
  have h1 : procLine ⟨false, cur0, acc⟩ (str "BEGIN:VCARD")
      = (⟨true, {}, acc⟩ : PState) := rfl
  simp only [cardLines, List.foldl_append, List.foldl_cons, h1]
  rw [propsFold props hg {} acc]
  simp only [List.foldl_cons, List.foldl_nil, procLine_end_in]

theorem cardsFold : ∀ (cards : List (List Str)),
    (∀ card ∈ cards, ∀ p ∈ card, GoodLine p) → ∀ (acc : List Contact),
    List.foldl procLine ⟨false, {}, acc⟩ ((cards.map cardLines).flatten)
      = ⟨false, {},
          acc ++ (cards.map
            (fun card => commitOf (card.foldl propStep {}))).flatten⟩ := by
  intro cards
  induction cards with
  | nil => intro _ acc; simp
  | cons card rest ih =>
    intro h acc
    have hc : ∀ p ∈ card, GoodLine p := h card (by simp)
    have hr : ∀ c ∈ rest, ∀ p ∈ c, GoodLine p := fun c hcc => h c (by simp [hcc])
    simp only [List.map_cons, List.flatten_cons, List.foldl_append]
    rw [cardFold card hc {} acc, ih hr]
    simp

theorem joinNl_append (a b : List Str) :
    joinNl (a ++ b) = joinNl a ++ joinNl b := by
  simp [joinNl]

theorem joinNl_flatten : ∀ (L : List (List Str)),
    (L.map joinNl).flatten = joinNl L.flatten := by
  intro L
  induction L with
  | nil => rfl
  | cons l L2 ih =>
    simp only [List.map_cons, List.flatten_cons, joinNl_append, ih]

theorem not_mem_joinNl {c : Char} (hc : c ≠ '\n') : ∀ {ls : List Str},
    (∀ l ∈ ls, c ∉ l) → c ∉ joinNl ls := by
  intro ls
  induction ls with
  | nil =>
    intro _ h
    simp [joinNl] at h
  | cons l ls2 ih =>
    intro h hmem
    have : joinNl (l :: ls2) = (l ++ ['\n']) ++ joinNl ls2 := by
      simp [joinNl]
    rw [this] at hmem
    rcases List.mem_append.mp hmem with h1 | h1
    · rcases List.mem_append.mp h1 with h2 | h2
      · exact h l (by simp) h2
      · simp at h2
        exact hc h2
    · exact ih (fun x hx => h x (by simp [hx])) h1

theorem parse_joinNl (ls : List Str) (hnl : ∀ l ∈ ls, '\n' ∉ l)
    (hnr : ∀ l ∈ ls, '\r' ∉ l) (hws : ∀ l ∈ ls, startsWS l = false) :
    parse_vcard_contacts (joinNl ls)
      = (if (ls.foldl procLine ⟨false, {}, []⟩).inCard
         then (ls.foldl procLine ⟨false, {}, []⟩).acc
           ++ commitOf (ls.foldl procLine ⟨false, {}, []⟩).cur
         else (ls.foldl procLine ⟨false, {}, []⟩).acc) := by
  have hr : '\r' ∉ joinNl ls := not_mem_joinNl (by decide) hnr
  simp only [parse_vcard_contacts, _unfold_vcard_lines]
  rw [normNl_id hr, splitChar_joinNl hnl]
  have hws2 : ∀ l ∈ ls ++ [[]], startsWS l = false := by
    intro l hl
    rcases List.mem_append.mp hl with h | h
    · exact hws l h
    · simp at h
      subst h
      rfl
  rw [unfold_id hws2 []]
  simp only [List.reverse_nil, List.nil_append, List.foldl_append,
    List.foldl_cons, List.foldl_nil, procLine_empty]

theorem cardLines_mem {l : Str} {cards : List (List Str)}
    (hg : ∀ card ∈ cards, ∀ p ∈ card, GoodLine p)
    (hl : l ∈ (cards.map cardLines).flatten) :
    ('\n' ∉ l) ∧ ('\r' ∉ l) ∧ startsWS l = false := by
  rw [List.mem_flatten] at hl
  obtain ⟨ls, hls, hmem⟩ := hl
  rw [List.mem_map] at hls
  obtain ⟨card, hcard, rfl⟩ := hls
  simp only [cardLines, List.mem_cons, List.mem_append,
    List.mem_singleton] at hmem
  rcases hmem with (rfl | h) | (rfl | h0)
  · exact ⟨by decide, by decide, rfl⟩
  · obtain ⟨h1, h2, h3, -, -⟩ := hg card hcard l h
    exact ⟨h1, h2, h3⟩
  · exact ⟨by decide, by decide, rfl⟩
  · simp at h0

/-- C7 as stated is false: an `END:VCARD` closing a card in which no property
stored any field (here: a card with no properties at all) does not
materialize a record. -/
theorem C7_counterexample :
    parse_vcard_contacts (str "BEGIN:VCARD\nEND:VCARD\n") = [] := by
  decide

set_option maxHeartbeats 800000 in
/-- C7 amended.  The decoder emits `commitOf` of the collected dict for each
card, in input order: one record per card whose lines stored at least one
field (even an empty value), and no record for a card that stored none; a
trailing unterminated card is committed the same way at end of input. -/
theorem C7_amended_one_record_per_committing_card (cards : List (List Str))
    (tailProps : List Str)
    (hg : ∀ card ∈ cards, ∀ p ∈ card, GoodLine p)
    (hgt : ∀ p ∈ tailProps, GoodLine p) :
    parse_vcard_contacts ((cards.map renderCard).flatten)
      = (cards.map (fun card => commitOf (card.foldl propStep {}))).flatten ∧
    parse_vcard_contacts ((cards.map renderCard).flatten
        ++ joinNl (str "BEGIN:VCARD" :: tailProps))
      = (cards.map (fun card => commitOf (card.foldl propStep {}))).flatten
        ++ commitOf (tailProps.foldl propStep {}) := by
  have htext : (cards.map renderCard).flatten
      = joinNl ((cards.map cardLines).flatten) := by
    have : cards.map renderCard = (cards.map cardLines).map joinNl := by
      simp [renderCard, Function.comp]
    rw [this, joinNl_flatten]
  constructor
  · rw [htext]
    rw [parse_joinNl ((cards.map cardLines).flatten)
      (fun l hl => (cardLines_mem hg hl).1)
      (fun l hl => (cardLines_mem hg hl).2.1)
      (fun l hl => (cardLines_mem hg hl).2.2)]
    rw [cardsFold cards hg []]
    simp
  · have htext2 : (cards.map renderCard).flatten
        ++ joinNl (str "BEGIN:VCARD" :: tailProps)
        = joinNl ((cards.map cardLines).flatten
            ++ (str "BEGIN:VCARD" :: tailProps)) := by
      rw [htext, joinNl_append]
    rw [htext2]
    have hmem2 : ∀ l ∈ (cards.map cardLines).flatten
        ++ (str "BEGIN:VCARD" :: tailProps),
        ('\n' ∉ l) ∧ ('\r' ∉ l) ∧ startsWS l = false := by
      intro l hl
      rcases List.mem_append.mp hl with h | h
      · exact cardLines_mem hg h
      · rcases List.mem_cons.mp h with rfl | h2
        · exact ⟨by decide, by decide, rfl⟩
        · obtain ⟨h1, h2', h3, -, -⟩ := hgt l h2
          exact ⟨h1, h2', h3⟩
    rw [parse_joinNl _ (fun l hl => (hmem2 l hl).1)
      (fun l hl => (hmem2 l hl).2.1) (fun l hl => (hmem2 l hl).2.2)]
    rw [List.foldl_append, cardsFold cards hg []]
    simp only [List.foldl_cons, List.nil_append]
    have h1 : procLine
        ⟨false, {},
          (cards.map (fun card => commitOf (card.foldl propStep {}))).flatten⟩
        (str "BEGIN:VCARD")
        = (⟨true, {},
            (cards.map
              (fun card => commitOf (card.foldl propStep {}))).flatten⟩
          : PState) := rfl
    rw [h1, propsFold tailProps hgt]
    simp

/-- Witness for C7 amended: a card with an `N` line yields one record, a
propertyless card yields none. -/
theorem C7_witness :
    parse_vcard_contacts
        ((([[str "N:Doe;Jane;;;"], []] : List (List Str)).map
          renderCard).flatten)
      = [{ name := str "Doe", vorname := str "Jane" }] := by
  have h := (C7_amended_one_record_per_committing_card
    [[str "N:Doe;Jane;;;"], []] [] (by decide) (by decide)).1
  rw [h]
  decide

/-! ## The vCard encoder (`AddressBookWindow.export_vcard`) -/

/-- The lines written for one record by `export_vcard` (source lines
683-702), in write order. -/
def exportCardLines (c : Contact) : List Str :=
  [str "BEGIN:VCARD", str "VERSION:3.0",
   str "N:" ++ c.name ++ str ";" ++ c.vorname ++ str ";;;",
   str "FN:" ++ pyStrip (c.vorname ++ str " " ++ c.name)]
  ++ (if c.email ≠ [] then [str "EMAIL:" ++ c.email] else [])
  ++ (if c.mobile ≠ [] then [str "TEL;TYPE=CELL:" ++ c.mobile] else [])
  ++ (if c.festnetz ≠ [] then [str "TEL;TYPE=HOME:" ++ c.festnetz] else [])
  ++ (if c.strasse ≠ [] ∨ c.ort ≠ [] ∨ c.plz ≠ [] then
        [str "ADR;TYPE=HOME:;;" ++ c.strasse ++ str ";" ++ c.ort ++ str ";;"
          ++ c.plz ++ str ";;"]
      else [])
  ++ (if c.webseite ≠ [] then
        [str "URL:" ++ (if ¬ (str "http").isPrefixOf c.webseite then
          str "https://" ++ c.webseite else c.webseite)]
      else [])
  ++ (if c.geburtsdatum ≠ [] then [str "BDAY:" ++ c.geburtsdatum] else [])
  ++ [str "END:VCARD"]

/-- Method `AddressBookWindow.export_vcard`: the full text written for a
record list (every line is written with a trailing newline). -/
def export_vcard (cs : List Contact) : Str :=
  joinNl ((cs.map exportCardLines).flatten)

/-! ## C8: empty properties in the encoder -/

/-- C8 as stated is false: for a record with empty first and last name the
encoder still writes an empty `N` line (`N:;;;;`) and an empty `FN` line
(`FN:`). -/
theorem C8_counterexample :
    export_vcard [DEFAULT_CONTACT]
      = str "BEGIN:VCARD\nVERSION:3.0\nN:;;;;\nFN:\nEND:VCARD\n" ∧
    str "N:;;;;" ∈ exportCardLines DEFAULT_CONTACT ∧
    str "FN:" ∈ exportCardLines DEFAULT_CONTACT := by
  refine ⟨by decide, by decide, by decide⟩

theorem mem_if_singleton {P : Prop} [Decidable P] {l x : Str}
    (h : l ∈ (if P then [x] else [])) : l = x ∧ P := by
  split at h
  · simp at h
    exact ⟨h, by assumption⟩
  · simp at h

/-- C8 amended.  The `N` and `FN` lines are always emitted, even with empty
names; every other line of an exported card is either a fixed frame line
(`BEGIN:VCARD`, `VERSION:3.0`, `END:VCARD`) or a property line whose source
field is non-empty — a property with an empty source is omitted entirely. -/
theorem C8_amended_empty_properties_omitted (c : Contact) :
    (str "N:" ++ c.name ++ str ";" ++ c.vorname ++ str ";;;")
      ∈ exportCardLines c ∧
    (str "FN:" ++ pyStrip (c.vorname ++ str " " ++ c.name))
      ∈ exportCardLines c ∧
    ∀ l ∈ exportCardLines c,
      l = str "BEGIN:VCARD" ∨ l = str "VERSION:3.0" ∨
      l = str "END:VCARD" ∨
      l = str "N:" ++ c.name ++ str ";" ++ c.vorname ++ str ";;;" ∨
      l = str "FN:" ++ pyStrip (c.vorname ++ str " " ++ c.name) ∨
      (l = str "EMAIL:" ++ c.email ∧ c.email ≠ []) ∨
      (l = str "TEL;TYPE=CELL:" ++ c.mobile ∧ c.mobile ≠ []) ∨
      (l = str "TEL;TYPE=HOME:" ++ c.festnetz ∧ c.festnetz ≠ []) ∨
      (l = str "ADR;TYPE=HOME:;;" ++ c.strasse ++ str ";" ++ c.ort
          ++ str ";;" ++ c.plz ++ str ";;"
        ∧ (c.strasse ≠ [] ∨ c.ort ≠ [] ∨ c.plz ≠ [])) ∨
      (l = str "URL:" ++ (if ¬ (str "http").isPrefixOf c.webseite then
          str "https://" ++ c.webseite else c.webseite) ∧ c.webseite ≠ []) ∨
      (l = str "BDAY:" ++ c.geburtsdatum ∧ c.geburtsdatum ≠ []) := by
  refine ⟨by simp [exportCardLines], by simp [exportCardLines], ?_⟩
  intro l hl
  rw [show exportCardLines c
    = ([str "BEGIN:VCARD", str "VERSION:3.0",
        str "N:" ++ c.name ++ str ";" ++ c.vorname ++ str ";;;",
        str "FN:" ++ pyStrip (c.vorname ++ str " " ++ c.name)]
      ++ (if c.email ≠ [] then [str "EMAIL:" ++ c.email] else [])
      ++ (if c.mobile ≠ [] then [str "TEL;TYPE=CELL:" ++ c.mobile] else [])
      ++ (if c.festnetz ≠ [] then [str "TEL;TYPE=HOME:" ++ c.festnetz] else [])
      ++ (if c.strasse ≠ [] ∨ c.ort ≠ [] ∨ c.plz ≠ [] then
            [str "ADR;TYPE=HOME:;;" ++ c.strasse ++ str ";" ++ c.ort
              ++ str ";;" ++ c.plz ++ str ";;"]
          else [])
      ++ (if c.webseite ≠ [] then
            [str "URL:" ++ (if ¬ (str "http").isPrefixOf c.webseite then
              str "https://" ++ c.webseite else c.webseite)]
          else [])
      ++ (if c.geburtsdatum ≠ [] then [str "BDAY:" ++ c.geburtsdatum] else []))
      ++ [str "END:VCARD"] from rfl] at hl
  rcases List.mem_append.mp hl with h | h
  case inr =>
    simp only [List.mem_singleton] at h
    subst h
    exact Or.inr (Or.inr (Or.inl rfl))
  rcases List.mem_append.mp h with h | h
  case inr =>
    obtain ⟨rfl, hp⟩ := mem_if_singleton h
    exact Or.inr (Or.inr (Or.inr (Or.inr (Or.inr (Or.inr (Or.inr (Or.inr
      (Or.inr (Or.inr ⟨rfl, hp⟩)))))))))
  rcases List.mem_append.mp h with h | h
  case inr =>
    obtain ⟨rfl, hp⟩ := mem_if_singleton h
    exact Or.inr (Or.inr (Or.inr (Or.inr (Or.inr (Or.inr (Or.inr (Or.inr
      (Or.inr (Or.inl ⟨rfl, hp⟩)))))))))
  rcases List.mem_append.mp h with h | h
  case inr =>
    obtain ⟨rfl, hp⟩ := mem_if_singleton h
    exact Or.inr (Or.inr (Or.inr (Or.inr (Or.inr (Or.inr (Or.inr (Or.inr
      (Or.inl ⟨rfl, hp⟩))))))))
  rcases List.mem_append.mp h with h | h
  case inr =>
    obtain ⟨rfl, hp⟩ := mem_if_singleton h
    exact Or.inr (Or.inr (Or.inr (Or.inr (Or.inr (Or.inr (Or.inr
      (Or.inl ⟨rfl, hp⟩)))))))
  rcases List.mem_append.mp h with h | h
  case inr =>
    obtain ⟨rfl, hp⟩ := mem_if_singleton h
    exact Or.inr (Or.inr (Or.inr (Or.inr (Or.inr (Or.inr (Or.inl ⟨rfl, hp⟩))))))
  rcases List.mem_append.mp h with h | h
  case inr =>
    obtain ⟨rfl, hp⟩ := mem_if_singleton h
    exact Or.inr (Or.inr (Or.inr (Or.inr (Or.inr (Or.inl ⟨rfl, hp⟩)))))
  simp only [List.mem_cons, List.mem_singleton, List.not_mem_nil,
    or_false] at h
  rcases h with rfl | rfl | rfl | rfl
  · exact Or.inl rfl
  · exact Or.inr (Or.inl rfl)
  · exact Or.inr (Or.inr (Or.inr (Or.inl rfl)))
  · exact Or.inr (Or.inr (Or.inr (Or.inr (Or.inl rfl))))

/-- Sample store record carrying only an email, for the encoder claims. -/
def incMailContact : Contact := { email := str "a@x.com" }

/-- Witness for C8 amended: on a record with only an email, the email line
is classified as a non-empty property line. -/
theorem C8_witness :
    (str "EMAIL:" ++ str "a@x.com") ∈ exportCardLines incMailContact ∧
    ((str "EMAIL:" ++ str "a@x.com") = str "BEGIN:VCARD" ∨
      (str "EMAIL:" ++ str "a@x.com") = str "VERSION:3.0" ∨
      (str "EMAIL:" ++ str "a@x.com") = str "END:VCARD" ∨
      (str "EMAIL:" ++ str "a@x.com") = str "N:" ++ incMailContact.name
        ++ str ";" ++ incMailContact.vorname ++ str ";;;" ∨
      (str "EMAIL:" ++ str "a@x.com") = str "FN:"
        ++ pyStrip (incMailContact.vorname ++ str " " ++ incMailContact.name) ∨
      ((str "EMAIL:" ++ str "a@x.com") = str "EMAIL:" ++ incMailContact.email
        ∧ incMailContact.email ≠ []) ∨
      ((str "EMAIL:" ++ str "a@x.com") = str "TEL;TYPE=CELL:"
        ++ incMailContact.mobile ∧ incMailContact.mobile ≠ []) ∨
      ((str "EMAIL:" ++ str "a@x.com") = str "TEL;TYPE=HOME:"
        ++ incMailContact.festnetz ∧ incMailContact.festnetz ≠ []) ∨
      ((str "EMAIL:" ++ str "a@x.com") = str "ADR;TYPE=HOME:;;"
          ++ incMailContact.strasse ++ str ";" ++ incMailContact.ort
          ++ str ";;" ++ incMailContact.plz ++ str ";;"
        ∧ (incMailContact.strasse ≠ [] ∨ incMailContact.ort ≠ []
          ∨ incMailContact.plz ≠ [])) ∨
      ((str "EMAIL:" ++ str "a@x.com") = str "URL:"
          ++ (if ¬ (str "http").isPrefixOf incMailContact.webseite then
            str "https://" ++ incMailContact.webseite
          else incMailContact.webseite) ∧ incMailContact.webseite ≠ []) ∨
      ((str "EMAIL:" ++ str "a@x.com") = str "BDAY:"
        ++ incMailContact.geburtsdatum ∧ incMailContact.geburtsdatum ≠ [])) := by
  refine ⟨by decide, ?_⟩
  exact (C8_amended_empty_properties_omitted incMailContact).2.2
    (str "EMAIL:" ++ str "a@x.com") (by decide)

/-! ## C3: round-trip helpers -/

theorem mem_pyStrip {x : Char} {l : Str} (h : x ∈ pyStrip l) : x ∈ l := by
  simp only [pyStrip, List.mem_reverse] at h
  have h2 := (List.dropWhile_suffix isWS).sublist.mem h
  rw [List.mem_reverse] at h2
  exact (List.dropWhile_suffix isWS).sublist.mem h2

theorem clean_head {l : Str} (hc : pyStrip l = l) {ch : Char}
    (h : l.head? = some ch) : isWS ch = false := by
  by_contra hws
  rw [Bool.not_eq_false] at hws
  cases l with
  | nil => simp at h
  | cons a t =>
    simp only [List.head?_cons, Option.some.injEq] at h
    subst h
    have hdrop : (a :: t).dropWhile isWS = t.dropWhile isWS := by
      simp [List.dropWhile_cons, hws]
    have hlen : (pyStrip (a :: t)).length ≤ t.length := by
      simp only [pyStrip, hdrop, List.length_reverse]
      calc (List.dropWhile isWS (t.dropWhile isWS).reverse).length
          ≤ (t.dropWhile isWS).reverse.length :=
            (List.dropWhile_suffix isWS).sublist.length_le
        _ = (t.dropWhile isWS).length := List.length_reverse _
        _ ≤ t.length := (List.dropWhile_suffix isWS).sublist.length_le
    rw [hc] at hlen
    simp at hlen

theorem clean_last {l : Str} (hc : pyStrip l = l) {ch : Char}
    (h : l.getLast? = some ch) : isWS ch = false := by
  by_contra hws
  rw [Bool.not_eq_false] at hws
  have hnil : l ≠ [] := by
    intro e
    subst e
    simp at h
  obtain ⟨w, hw⟩ := List.dropWhile_suffix (l := l) isWS
  by_cases hA : l.dropWhile isWS = []
  · have : pyStrip l = [] := by
      simp [pyStrip, hA]
    rw [hc] at this
    exact hnil this
  · have hlastA : (l.dropWhile isWS).getLast? = some ch := by
      obtain ⟨x, hx⟩ := Option.isSome_iff_exists.mp
        (List.getLast?_isSome.mpr hA)
      have hlx : l.getLast? = some x := by
        conv_lhs => rw [← hw]
        rw [List.getLast?_append, hx]
        rfl
      rw [hlx] at h
      rw [hx]
      exact h
    have hheadrev : (l.dropWhile isWS).reverse.head? = some ch := by
      rw [List.head?_reverse]
      exact hlastA
    cases hrv : (l.dropWhile isWS).reverse with
    | nil =>
      rw [hrv] at hheadrev
      simp at hheadrev
    | cons a t =>
      rw [hrv] at hheadrev
      simp only [List.head?_cons, Option.some.injEq] at hheadrev
      subst hheadrev
      have hlen : (pyStrip l).length ≤ t.length := by
        simp only [pyStrip, List.length_reverse, hrv]
        have : List.dropWhile isWS (a :: t) = List.dropWhile isWS t := by
          simp [List.dropWhile_cons, hws]
        rw [this]
        exact (List.dropWhile_suffix isWS).sublist.length_le
      have hlen2 : t.length + 1 ≤ l.length := by
        have e1 : (l.dropWhile isWS).length = t.length + 1 := by
          rw [← List.length_reverse, hrv]
          rfl
        have := (List.dropWhile_suffix (l := l) isWS).sublist.length_le
        omega
      rw [hc] at hlen
      omega

theorem pyStrip_id_of_ends {l : Str}
    (h1 : ∀ ch, l.head? = some ch → isWS ch = false)
    (h2 : ∀ ch, l.getLast? = some ch → isWS ch = false) : pyStrip l = l := by
  have hd : l.dropWhile isWS = l := by
    cases l with
    | nil => rfl
    | cons a t =>
      have := h1 a rfl
      simp [List.dropWhile_cons, this]
  have hrev : l.reverse.dropWhile isWS = l.reverse := by
    cases hr : l.reverse with
    | nil => rfl
    | cons a t =>
      have ha : l.getLast? = some a := by
        rw [← List.head?_reverse, hr]
        rfl
      have := h2 a ha
      rw [← hr]
      rw [hr]
      simp [List.dropWhile_cons, this]
  simp only [pyStrip, hd, hrev, List.reverse_reverse]

theorem splitFirst_prefix {sep : Char} {a : Str} (b : Str) (ha : sep ∉ a) :
    splitFirst sep (a ++ sep :: b) = some (a, b) := by
  induction a with
  | nil => simp [splitFirst]
  | cons c a2 ih =>
    have hc : c ≠ sep := fun e => ha (by simp [e])
    have ha2 : sep ∉ a2 := fun e => ha (by simp [e])
    simp [splitFirst, hc, ih ha2]

theorem ne_of_idx {l1 l2 : Str} (i : Nat) (h : l1[i]? ≠ l2[i]?) : l1 ≠ l2 :=
  fun e => h (by rw [e])

theorem getLast?_append_of_ne {a b : Str} (hb : b ≠ []) :
    (a ++ b).getLast? = b.getLast? := by
  rw [List.getLast?_append]
  obtain ⟨x, hx⟩ := Option.isSome_iff_exists.mp (List.getLast?_isSome.mpr hb)
  rw [hx]
  rfl

/-! ## Dispatch lemmas for `applyProp` -/

theorem applyProp_dispatch_N {cur : PartialContact} {ln left value : Str}
    (hsp : splitFirst ':' ln = some (left, value))
    (hp : (splitChar ';' (pyUpper left)).headD [] = str "N") :
    applyProp cur ln = applyN cur value := by
  simp only [applyProp, hsp]
  rw [if_pos hp]

theorem applyProp_dispatch_FN {cur : PartialContact} {ln left value : Str}
    (hsp : splitFirst ':' ln = some (left, value))
    (h1 : (splitChar ';' (pyUpper left)).headD [] ≠ str "N")
    (hp : (splitChar ';' (pyUpper left)).headD [] = str "FN") :
    applyProp cur ln = applyFN cur value := by
  simp only [applyProp, hsp]
  rw [if_neg h1, if_pos hp]

theorem applyProp_dispatch_EMAIL {cur : PartialContact} {ln left value : Str}
    (hsp : splitFirst ':' ln = some (left, value))
    (h1 : (splitChar ';' (pyUpper left)).headD [] ≠ str "N")
    (h2 : (splitChar ';' (pyUpper left)).headD [] ≠ str "FN")
    (hp : (splitChar ';' (pyUpper left)).headD [] = str "EMAIL") :
    applyProp cur ln = applyEMAIL cur value := by
  simp only [applyProp, hsp]
  rw [if_neg h1, if_neg h2, if_pos hp]

theorem applyProp_dispatch_TEL {cur : PartialContact} {ln left value : Str}
    (hsp : splitFirst ':' ln = some (left, value))
    (h1 : (splitChar ';' (pyUpper left)).headD [] ≠ str "N")
    (h2 : (splitChar ';' (pyUpper left)).headD [] ≠ str "FN")
    (h3 : (splitChar ';' (pyUpper left)).headD [] ≠ str "EMAIL")
    (hp : (splitChar ';' (pyUpper left)).headD [] = str "TEL") :
    applyProp cur ln = applyTEL cur (pyUpper left) value := by
  simp only [applyProp, hsp]
  rw [if_neg h1, if_neg h2, if_neg h3, if_pos hp]

theorem applyProp_dispatch_ADR {cur : PartialContact} {ln left value : Str}
    (hsp : splitFirst ':' ln = some (left, value))
    (h1 : (splitChar ';' (pyUpper left)).headD [] ≠ str "N")
    (h2 : (splitChar ';' (pyUpper left)).headD [] ≠ str "FN")
    (h3 : (splitChar ';' (pyUpper left)).headD [] ≠ str "EMAIL")
    (h4 : (splitChar ';' (pyUpper left)).headD [] ≠ str "TEL")
    (hp : (splitChar ';' (pyUpper left)).headD [] = str "ADR") :
    applyProp cur ln = applyADR cur value := by
  simp only [applyProp, hsp]
  rw [if_neg h1, if_neg h2, if_neg h3, if_neg h4, if_pos hp]

theorem applyProp_dispatch_URL {cur : PartialContact} {ln left value : Str}
    (hsp : splitFirst ':' ln = some (left, value))
    (h1 : (splitChar ';' (pyUpper left)).headD [] ≠ str "N")
    (h2 : (splitChar ';' (pyUpper left)).headD [] ≠ str "FN")
    (h3 : (splitChar ';' (pyUpper left)).headD [] ≠ str "EMAIL")
    (h4 : (splitChar ';' (pyUpper left)).headD [] ≠ str "TEL")
    (h5 : (splitChar ';' (pyUpper left)).headD [] ≠ str "ADR")
    (hp : (splitChar ';' (pyUpper left)).headD [] = str "URL" ∨
      (splitChar ';' (pyUpper left)).headD [] = str "WEB" ∨
      (splitChar ';' (pyUpper left)).headD [] = str "WEBSITE") :
    applyProp cur ln = applyURL cur value := by
  simp only [applyProp, hsp]
  rw [if_neg h1, if_neg h2, if_neg h3, if_neg h4, if_neg h5, if_pos hp]

theorem applyProp_dispatch_BDAY {cur : PartialContact} {ln left value : Str}
    (hsp : splitFirst ':' ln = some (left, value))
    (h1 : (splitChar ';' (pyUpper left)).headD [] ≠ str "N")
    (h2 : (splitChar ';' (pyUpper left)).headD [] ≠ str "FN")
    (h3 : (splitChar ';' (pyUpper left)).headD [] ≠ str "EMAIL")
    (h4 : (splitChar ';' (pyUpper left)).headD [] ≠ str "TEL")
    (h5 : (splitChar ';' (pyUpper left)).headD [] ≠ str "ADR")
    (h6 : ¬ ((splitChar ';' (pyUpper left)).headD [] = str "URL" ∨
      (splitChar ';' (pyUpper left)).headD [] = str "WEB" ∨
      (splitChar ';' (pyUpper left)).headD [] = str "WEBSITE"))
    (hp : (splitChar ';' (pyUpper left)).headD [] = str "BDAY" ∨
      (splitChar ';' (pyUpper left)).headD [] = str "BIRTHDAY") :
    applyProp cur ln = applyBDAY cur value := by
  simp only [applyProp, hsp]
  rw [if_neg h1, if_neg h2, if_neg h3, if_neg h4, if_neg h5, if_neg h6,
    if_pos hp]

/-! ## Evaluating `applyProp` on the encoder's line shapes -/

theorem step_VERSION (cur : PartialContact) :
    applyProp cur (str "VERSION:3.0") = cur := rfl

theorem step_EMAIL {cur : PartialContact} {em : Str} (hcur : cur.email = none)
    (hclean : pyStrip em = em) (hlow : pyLower em = em) :
    applyProp cur (str "EMAIL:" ++ em) = { cur with email := some em } := by
  have hsp : splitFirst ':' (str "EMAIL:" ++ em) = some (str "EMAIL", em) := by
    rw [show str "EMAIL:" ++ em = str "EMAIL" ++ ':' :: em from rfl]
    exact splitFirst_prefix _ (by decide)
  rw [applyProp_dispatch_EMAIL hsp (by decide) (by decide) (by decide)]
  simp [applyEMAIL, falsy, hcur, hclean, hlow]

theorem step_N {cur : PartialContact} {nm vn : Str}
    (hnm : pyStrip nm = nm) (hvn : pyStrip vn = vn)
    (hs1 : ';' ∉ nm) (hs2 : ';' ∉ vn) :
    applyProp cur (str "N:" ++ nm ++ str ";" ++ vn ++ str ";;;")
      = { cur with name := some nm, vorname := some vn } := by
  have hsp : splitFirst ':' (str "N:" ++ nm ++ str ";" ++ vn ++ str ";;;")
      = some (str "N", nm ++ str ";" ++ vn ++ str ";;;") := by
    rw [show str "N:" ++ nm ++ str ";" ++ vn ++ str ";;;"
      = str "N" ++ ':' :: (nm ++ str ";" ++ vn ++ str ";;;") from rfl]
    exact splitFirst_prefix _ (by decide)
  rw [applyProp_dispatch_N hsp (by decide)]
  have hsplit : splitChar ';' (nm ++ str ";" ++ vn ++ str ";;;")
      = [nm, vn, [], [], []] := by
    rw [show nm ++ str ";" ++ vn ++ str ";;;"
      = nm ++ ';' :: (vn ++ ';' :: str ";;") from by
        simp only [List.append_assoc]
        rfl]
    rw [splitChar_append_cons _ hs1, splitChar_append_cons _ hs2]
    rfl
  simp only [applyN, hsplit]
  simp [hnm, hvn]

theorem step_FN {cur : PartialContact} {nm : Str} (fnv : Str)
    (hname : cur.name = some nm) (hcase : nm ≠ [] ∨ pyStrip fnv = []) :
    applyProp cur (str "FN:" ++ fnv) = cur := by
  have hsp : splitFirst ':' (str "FN:" ++ fnv) = some (str "FN", fnv) := by
    rw [show str "FN:" ++ fnv = str "FN" ++ ':' :: fnv from rfl]
    exact splitFirst_prefix _ (by decide)
  rw [applyProp_dispatch_FN hsp (by decide) (by decide)]
  simp only [applyFN]
  rcases hcase with h | h
  · rw [if_neg]
    intro hcond
    have h1 := hcond.1
    simp only [falsy, hname, Option.getD_some, List.isEmpty_iff] at h1
    exact h h1
  · rw [if_neg]
    intro hcond
    have h2 := hcond.2
    rw [h] at h2
    simp at h2

theorem step_CELL {cur : PartialContact} {v : Str} (hcur : cur.mobile = none)
    (hclean : pyStrip v = v) (hne : v ≠ []) :
    applyProp cur (str "TEL;TYPE=CELL:" ++ v)
      = { cur with mobile := some v } := by
  have hsp : splitFirst ':' (str "TEL;TYPE=CELL:" ++ v)
      = some (str "TEL;TYPE=CELL", v) := by
    rw [show str "TEL;TYPE=CELL:" ++ v
      = str "TEL;TYPE=CELL" ++ ':' :: v from rfl]
    exact splitFirst_prefix _ (by decide)
  rw [applyProp_dispatch_TEL hsp (by decide) (by decide) (by decide) (by decide)]
  rw [show pyUpper (str "TEL;TYPE=CELL") = str "TEL;TYPE=CELL" from by decide]
  simp only [applyTEL]
  rw [if_neg (by
    rw [hclean]
    simp [List.isEmpty_iff, hne])]
  rw [if_pos (by decide)]
  rw [if_pos (by rw [hcur]; rfl)]
  rw [hclean]

theorem step_HOME {cur : PartialContact} {v : Str} (hcur : cur.festnetz = none)
    (hclean : pyStrip v = v) (hne : v ≠ []) :
    applyProp cur (str "TEL;TYPE=HOME:" ++ v)
      = { cur with festnetz := some v } := by
  have hsp : splitFirst ':' (str "TEL;TYPE=HOME:" ++ v)
      = some (str "TEL;TYPE=HOME", v) := by
    rw [show str "TEL;TYPE=HOME:" ++ v
      = str "TEL;TYPE=HOME" ++ ':' :: v from rfl]
    exact splitFirst_prefix _ (by decide)
  rw [applyProp_dispatch_TEL hsp (by decide) (by decide) (by decide) (by decide)]
  rw [show pyUpper (str "TEL;TYPE=HOME") = str "TEL;TYPE=HOME" from by decide]
  simp only [applyTEL]
  rw [if_neg (by
    rw [hclean]
    simp [List.isEmpty_iff, hne])]
  rw [if_neg (by decide)]
  rw [if_pos (by decide)]
  rw [if_pos (by rw [hcur]; rfl)]
  rw [hclean]

theorem step_ADR {cur : PartialContact} {s o p : Str}
    (hs : cur.strasse = none) (ho : cur.ort = none) (hpz : cur.plz = none)
    (hcs : pyStrip s = s) (hco : pyStrip o = o) (hcp : pyStrip p = p)
    (h1 : ';' ∉ s) (h2 : ';' ∉ o) (h3 : ';' ∉ p) :
    applyProp cur (str "ADR;TYPE=HOME:;;" ++ s ++ str ";" ++ o ++ str ";;"
        ++ p ++ str ";;")
      = { cur with strasse := some s, ort := some o, plz := some p } := by
  have hsp : splitFirst ':' (str "ADR;TYPE=HOME:;;" ++ s ++ str ";" ++ o
      ++ str ";;" ++ p ++ str ";;")
      = some (str "ADR;TYPE=HOME",
          str ";;" ++ s ++ str ";" ++ o ++ str ";;" ++ p ++ str ";;") := by
    rw [show str "ADR;TYPE=HOME:;;" ++ s ++ str ";" ++ o ++ str ";;" ++ p
        ++ str ";;"
      = str "ADR;TYPE=HOME" ++ ':' :: (str ";;" ++ s ++ str ";" ++ o
        ++ str ";;" ++ p ++ str ";;") from rfl]
    exact splitFirst_prefix _ (by decide)
  rw [applyProp_dispatch_ADR hsp (by decide) (by decide) (by decide)
    (by decide) (by decide)]
  have hsplit : splitChar ';' (str ";;" ++ s ++ str ";" ++ o ++ str ";;"
      ++ p ++ str ";;") = [[], [], s, o, [], p, [], []] := by
    rw [show str ";;" ++ s ++ str ";" ++ o ++ str ";;" ++ p ++ str ";;"
      = ';' :: ';' :: (s ++ ';' :: (o ++ ';' :: ';' :: (p ++ ';' :: [';'])))
      from by
        simp only [List.append_assoc]
        rfl]
    rw [show splitChar ';' (';' :: ';' :: (s ++ ';' :: (o ++ ';' :: ';'
        :: (p ++ ';' :: [';']))))
      = [] :: [] :: splitChar ';' (s ++ ';' :: (o ++ ';' :: ';'
        :: (p ++ ';' :: [';']))) from by simp [splitChar]]
    rw [splitChar_append_cons _ h1]
    rw [show splitChar ';' (o ++ ';' :: ';' :: (p ++ ';' :: [';']))
      = o :: splitChar ';' (';' :: (p ++ ';' :: [';']))
      from splitChar_append_cons _ h2]
    rw [show splitChar ';' (';' :: (p ++ ';' :: [';']))
      = [] :: splitChar ';' (p ++ ';' :: [';']) from by simp [splitChar]]
    rw [splitChar_append_cons _ h3]
    rfl
  simp only [applyADR, hsplit]
  simp [falsy, hs, ho, hpz, hcs, hco, hcp]

theorem step_URL {cur : PartialContact} {w : Str} (hcur : cur.webseite = none)
    (hclean : pyStrip w = w) :
    applyProp cur (str "URL:" ++ w) = { cur with webseite := some w } := by
  have hsp : splitFirst ':' (str "URL:" ++ w) = some (str "URL", w) := by
    rw [show str "URL:" ++ w = str "URL" ++ ':' :: w from rfl]
    exact splitFirst_prefix _ (by decide)
  rw [applyProp_dispatch_URL hsp (by decide) (by decide) (by decide)
    (by decide) (by decide) (by decide)]
  simp [applyURL, falsy, hcur, hclean]

theorem step_BDAY {cur : PartialContact} {v : Str}
    (hcur : cur.geburtsdatum = none) (hclean : pyStrip v = v) :
    applyProp cur (str "BDAY:" ++ v)
      = { cur with geburtsdatum := some v } := by
  have hsp : splitFirst ':' (str "BDAY:" ++ v) = some (str "BDAY", v) := by
    rw [show str "BDAY:" ++ v = str "BDAY" ++ ':' :: v from rfl]
    exact splitFirst_prefix _ (by decide)
  rw [applyProp_dispatch_BDAY hsp (by decide) (by decide) (by decide)
    (by decide) (by decide) (by decide) (by decide)]
  simp [applyBDAY, falsy, hcur, hclean]

/-! ## Line shapes produced by the encoder are good card lines -/

/-- A field value that survives the decoder's per-value strip:
whitespace-trimmed and free of line breaks. -/
abbrev CleanField (l : Str) : Prop := pyStrip l = l ∧ '\n' ∉ l ∧ '\r' ∉ l

theorem ws_false_of_headQ {L : Str} {c0 : Char} (h0 : L.head? = some c0)
    (hws : isWS c0 = false) :
    ∀ ch, L.head? = some ch → isWS ch = false := by
  intro ch h
  rw [h0] at h
  injection h with h
  subst h
  exact hws

theorem ws_false_of_lastQ {L : Str} (c0 : Char) (h0 : L.getLast? = some c0)
    (hws : isWS c0 = false) :
    ∀ ch, L.getLast? = some ch → isWS ch = false := by
  intro ch h
  rw [h0] at h
  injection h with h
  subst h
  exact hws

theorem pyUpper_ne_sentinel {L sent : Str} (i : Nat) (ci : Char)
    (hi : L[i]? = some ci) (hne : some ci.toUpper ≠ sent[i]?) :
    pyUpper L ≠ sent := by
  apply ne_of_idx i
  rw [pyUpper, List.getElem?_map, hi]
  exact hne

theorem propStep_clean {cur : PartialContact} {L : Str}
    (hstrip : pyStrip L = L) (hne : L.isEmpty = false) :
    propStep cur L = applyProp cur L := by
  simp only [propStep, hstrip, hne]
  rfl

theorem foldl_seg_one {cur : PartialContact} {P : Prop} [Decidable P]
    {L : Str} :
    List.foldl propStep cur (if P then [L] else [])
      = if P then propStep cur L else cur := by
  split_ifs <;> rfl

theorem line_VERSION_good :
    GoodLine (str "VERSION:3.0") ∧
    pyStrip (str "VERSION:3.0") = str "VERSION:3.0" := by
  constructor
  · exact ⟨by decide, by decide, by decide, by decide, by decide⟩
  · decide

theorem line_N_good {nm vn : Str} (hnm : CleanField nm) (hvn : CleanField vn) :
    GoodLine (str "N:" ++ nm ++ str ";" ++ vn ++ str ";;;") ∧
    pyStrip (str "N:" ++ nm ++ str ";" ++ vn ++ str ";;;")
      = str "N:" ++ nm ++ str ";" ++ vn ++ str ";;;" := by
  have hstrip : pyStrip (str "N:" ++ nm ++ str ";" ++ vn ++ str ";;;")
      = str "N:" ++ nm ++ str ";" ++ vn ++ str ";;;" := by
    refine pyStrip_id_of_ends (ws_false_of_headQ rfl (by decide)) ?_
    refine ws_false_of_lastQ ';' ?_ (by decide)
    rw [getLast?_append_of_ne (by decide)]
    rfl
  refine ⟨⟨?_, ?_, rfl, ?_, ?_⟩, hstrip⟩
  · intro h
    rcases List.mem_append.mp h with h | h
    · rcases List.mem_append.mp h with h | h
      · rcases List.mem_append.mp h with h | h
        · rcases List.mem_append.mp h with h | h
          · exact absurd h (by decide)
          · exact hnm.2.1 h
        · exact absurd h (by decide)
      · exact hvn.2.1 h
    · exact absurd h (by decide)
  · intro h
    rcases List.mem_append.mp h with h | h
    · rcases List.mem_append.mp h with h | h
      · rcases List.mem_append.mp h with h | h
        · rcases List.mem_append.mp h with h | h
          · exact absurd h (by decide)
          · exact hnm.2.2 h
        · exact absurd h (by decide)
      · exact hvn.2.2 h
    · exact absurd h (by decide)
  · rw [hstrip]
    exact pyUpper_ne_sentinel 0 'N' rfl (by decide)
  · rw [hstrip]
    exact pyUpper_ne_sentinel 0 'N' rfl (by decide)

theorem line_FN_good {nm vn : Str} (hnm : CleanField nm) (hvn : CleanField vn) :
    GoodLine (str "FN:" ++ pyStrip (vn ++ str " " ++ nm)) ∧
    pyStrip (str "FN:" ++ pyStrip (vn ++ str " " ++ nm))
      = str "FN:" ++ pyStrip (vn ++ str " " ++ nm) := by
  have hstrip : pyStrip (str "FN:" ++ pyStrip (vn ++ str " " ++ nm))
      = str "FN:" ++ pyStrip (vn ++ str " " ++ nm) := by
    by_cases hfn : pyStrip (vn ++ str " " ++ nm) = []
    · rw [hfn]
      decide
    · refine pyStrip_id_of_ends (ws_false_of_headQ rfl (by decide)) ?_
      intro ch h
      rw [getLast?_append_of_ne hfn] at h
      exact clean_last (pyStrip_idem _) h
  have hmemfn : ∀ {x : Char}, x ∈ pyStrip (vn ++ str " " ++ nm) →
      x = ' ' ∨ x ∈ vn ∨ x ∈ nm := by
    intro x hx
    have := mem_pyStrip hx
    rcases List.mem_append.mp this with h | h
    · rcases List.mem_append.mp h with h | h
      · exact Or.inr (Or.inl h)
      · exact Or.inl (List.mem_singleton.mp h)
    · exact Or.inr (Or.inr h)
  refine ⟨⟨?_, ?_, rfl, ?_, ?_⟩, hstrip⟩
  · intro h
    rcases List.mem_append.mp h with h | h
    · exact absurd h (by decide)
    · rcases hmemfn h with h | h | h
      · exact absurd h (by decide)
      · exact hvn.2.1 h
      · exact hnm.2.1 h
  · intro h
    rcases List.mem_append.mp h with h | h
    · exact absurd h (by decide)
    · rcases hmemfn h with h | h | h
      · exact absurd h (by decide)
      · exact hvn.2.2 h
      · exact hnm.2.2 h
  · rw [hstrip]
    exact pyUpper_ne_sentinel 0 'F' rfl (by decide)
  · rw [hstrip]
    exact pyUpper_ne_sentinel 0 'F' rfl (by decide)

theorem line_lit_field_strip {lit e : Str} {c0 : Char}
    (h0 : (lit ++ e).head? = some c0) (hws0 : isWS c0 = false)
    (hcf : CleanField e) (hne : e ≠ []) :
    pyStrip (lit ++ e) = lit ++ e := by
  refine pyStrip_id_of_ends (ws_false_of_headQ h0 hws0) ?_
  intro ch h
  rw [getLast?_append_of_ne hne] at h
  exact clean_last hcf.1 h

theorem line_lit_field_good {lit e : Str} {c0 : Char}
    (h0 : (lit ++ e).head? = some c0) (hws0 : isWS c0 = false)
    (hnlit : '\n' ∉ lit) (hrlit : '\r' ∉ lit)
    (hsw : startsWS (lit ++ e) = false)
    (hcf : CleanField e) (hne : e ≠ [])
    (hb : pyUpper (lit ++ e) ≠ str "BEGIN:VCARD")
    (hd : pyUpper (lit ++ e) ≠ str "END:VCARD") :
    GoodLine (lit ++ e) ∧ pyStrip (lit ++ e) = lit ++ e := by
  have hstrip := line_lit_field_strip h0 hws0 hcf hne
  refine ⟨⟨?_, ?_, hsw, by rw [hstrip]; exact hb,
    by rw [hstrip]; exact hd⟩, hstrip⟩
  · intro h
    rcases List.mem_append.mp h with h | h
    · exact hnlit h
    · exact hcf.2.1 h
  · intro h
    rcases List.mem_append.mp h with h | h
    · exact hrlit h
    · exact hcf.2.2 h

theorem line_EMAIL_good {e : Str} (hcf : CleanField e) (hne : e ≠ []) :
    GoodLine (str "EMAIL:" ++ e) ∧
    pyStrip (str "EMAIL:" ++ e) = str "EMAIL:" ++ e :=
  line_lit_field_good rfl (by decide) (by decide) (by decide) rfl hcf hne
    (pyUpper_ne_sentinel 1 'M' rfl (by decide))
    (pyUpper_ne_sentinel 1 'M' rfl (by decide))

theorem line_CELL_good {e : Str} (hcf : CleanField e) (hne : e ≠ []) :
    GoodLine (str "TEL;TYPE=CELL:" ++ e) ∧
    pyStrip (str "TEL;TYPE=CELL:" ++ e) = str "TEL;TYPE=CELL:" ++ e :=
  line_lit_field_good rfl (by decide) (by decide) (by decide) rfl hcf hne
    (pyUpper_ne_sentinel 0 'T' rfl (by decide))
    (pyUpper_ne_sentinel 0 'T' rfl (by decide))

theorem line_HOME_good {e : Str} (hcf : CleanField e) (hne : e ≠ []) :
    GoodLine (str "TEL;TYPE=HOME:" ++ e) ∧
    pyStrip (str "TEL;TYPE=HOME:" ++ e) = str "TEL;TYPE=HOME:" ++ e :=
  line_lit_field_good rfl (by decide) (by decide) (by decide) rfl hcf hne
    (pyUpper_ne_sentinel 0 'T' rfl (by decide))
    (pyUpper_ne_sentinel 0 'T' rfl (by decide))

theorem line_URL_good {e : Str} (hcf : CleanField e) (hne : e ≠ []) :
    GoodLine (str "URL:" ++ e) ∧
    pyStrip (str "URL:" ++ e) = str "URL:" ++ e :=
  line_lit_field_good rfl (by decide) (by decide) (by decide) rfl hcf hne
    (pyUpper_ne_sentinel 0 'U' rfl (by decide))
    (pyUpper_ne_sentinel 0 'U' rfl (by decide))

theorem line_BDAY_good {e : Str} (hcf : CleanField e) (hne : e ≠ []) :
    GoodLine (str "BDAY:" ++ e) ∧
    pyStrip (str "BDAY:" ++ e) = str "BDAY:" ++ e :=
  line_lit_field_good rfl (by decide) (by decide) (by decide) rfl hcf hne
    (pyUpper_ne_sentinel 1 'D' rfl (by decide))
    (pyUpper_ne_sentinel 0 'B' rfl (by decide))

theorem line_ADR_good {s o p : Str} (hcs : CleanField s) (hco : CleanField o)
    (hcp : CleanField p) :
    GoodLine (str "ADR;TYPE=HOME:;;" ++ s ++ str ";" ++ o ++ str ";;"
      ++ p ++ str ";;") ∧
    pyStrip (str "ADR;TYPE=HOME:;;" ++ s ++ str ";" ++ o ++ str ";;"
        ++ p ++ str ";;")
      = str "ADR;TYPE=HOME:;;" ++ s ++ str ";" ++ o ++ str ";;"
        ++ p ++ str ";;" := by
  have hstrip : pyStrip (str "ADR;TYPE=HOME:;;" ++ s ++ str ";" ++ o
      ++ str ";;" ++ p ++ str ";;")
      = str "ADR;TYPE=HOME:;;" ++ s ++ str ";" ++ o ++ str ";;"
        ++ p ++ str ";;" := by
    refine pyStrip_id_of_ends (ws_false_of_headQ rfl (by decide)) ?_
    refine ws_false_of_lastQ ';' ?_ (by decide)
    rw [getLast?_append_of_ne (by decide)]
    rfl
  refine ⟨⟨?_, ?_, rfl, ?_, ?_⟩, hstrip⟩
  · intro h
    rcases List.mem_append.mp h with h | h
    · rcases List.mem_append.mp h with h | h
      · rcases List.mem_append.mp h with h | h
        · rcases List.mem_append.mp h with h | h
          · rcases List.mem_append.mp h with h | h
            · rcases List.mem_append.mp h with h | h
              · exact absurd h (by decide)
              · exact hcs.2.1 h
            · exact absurd h (by decide)
          · exact hco.2.1 h
        · exact absurd h (by decide)
      · exact hcp.2.1 h
    · exact absurd h (by decide)
  · intro h
    rcases List.mem_append.mp h with h | h
    · rcases List.mem_append.mp h with h | h
      · rcases List.mem_append.mp h with h | h
        · rcases List.mem_append.mp h with h | h
          · rcases List.mem_append.mp h with h | h
            · rcases List.mem_append.mp h with h | h
              · exact absurd h (by decide)
              · exact hcs.2.2 h
            · exact absurd h (by decide)
          · exact hco.2.2 h
        · exact absurd h (by decide)
      · exact hcp.2.2 h
    · exact absurd h (by decide)
  · rw [hstrip]
    exact pyUpper_ne_sentinel 0 'A' rfl (by decide)
  · rw [hstrip]
    exact pyUpper_ne_sentinel 0 'A' rfl (by decide)

/-! ## Segment evaluation for the round-trip -/

theorem pc_eta_email {cur : PartialContact} (h : cur.email = none) :
    ({ cur with email := none } : PartialContact) = cur := by
  cases cur
  simp_all

theorem pc_eta_mobile {cur : PartialContact} (h : cur.mobile = none) :
    ({ cur with mobile := none } : PartialContact) = cur := by
  cases cur
  simp_all

theorem pc_eta_festnetz {cur : PartialContact} (h : cur.festnetz = none) :
    ({ cur with festnetz := none } : PartialContact) = cur := by
  cases cur
  simp_all

theorem pc_eta_webseite {cur : PartialContact} (h : cur.webseite = none) :
    ({ cur with webseite := none } : PartialContact) = cur := by
  cases cur
  simp_all

theorem pc_eta_geburtsdatum {cur : PartialContact}
    (h : cur.geburtsdatum = none) :
    ({ cur with geburtsdatum := none } : PartialContact) = cur := by
  cases cur
  simp_all

theorem pc_eta_adr {cur : PartialContact} (h1 : cur.strasse = none)
    (h2 : cur.ort = none) (h3 : cur.plz = none) :
    ({ cur with strasse := none, ort := none, plz := none }
      : PartialContact) = cur := by
  cases cur
  simp_all

theorem seg_EMAIL {cur : PartialContact} {e : Str} (hc : cur.email = none)
    (hcf : CleanField e) (hlow : pyLower e = e) :
    List.foldl propStep cur (if e ≠ [] then [str "EMAIL:" ++ e] else [])
      = { cur with email := if e = [] then none else some e } := by
  rw [foldl_seg_one]
  by_cases he : e = []
  · rw [if_neg (by simp [he]), if_pos he]
    exact (pc_eta_email hc).symm
  · rw [if_pos he, if_neg he]
    rw [propStep_clean (line_EMAIL_good hcf he).2 rfl]
    exact step_EMAIL hc hcf.1 hlow

theorem seg_CELL {cur : PartialContact} {e : Str} (hc : cur.mobile = none)
    (hcf : CleanField e) :
    List.foldl propStep cur
        (if e ≠ [] then [str "TEL;TYPE=CELL:" ++ e] else [])
      = { cur with mobile := if e = [] then none else some e } := by
  rw [foldl_seg_one]
  by_cases he : e = []
  · rw [if_neg (by simp [he]), if_pos he]
    exact (pc_eta_mobile hc).symm
  · rw [if_pos he, if_neg he]
    rw [propStep_clean (line_CELL_good hcf he).2 rfl]
    exact step_CELL hc hcf.1 he

theorem seg_HOME {cur : PartialContact} {e : Str} (hc : cur.festnetz = none)
    (hcf : CleanField e) :
    List.foldl propStep cur
        (if e ≠ [] then [str "TEL;TYPE=HOME:" ++ e] else [])
      = { cur with festnetz := if e = [] then none else some e } := by
  rw [foldl_seg_one]
  by_cases he : e = []
  · rw [if_neg (by simp [he]), if_pos he]
    exact (pc_eta_festnetz hc).symm
  · rw [if_pos he, if_neg he]
    rw [propStep_clean (line_HOME_good hcf he).2 rfl]
    exact step_HOME hc hcf.1 he

theorem seg_ADR {cur : PartialContact} {s o p : Str} (h1 : cur.strasse = none)
    (h2 : cur.ort = none) (h3 : cur.plz = none)
    (hcs : CleanField s) (hco : CleanField o) (hcp : CleanField p)
    (hs1 : ';' ∉ s) (hs2 : ';' ∉ o) (hs3 : ';' ∉ p) :
    List.foldl propStep cur
        (if s ≠ [] ∨ o ≠ [] ∨ p ≠ [] then
          [str "ADR;TYPE=HOME:;;" ++ s ++ str ";" ++ o ++ str ";;"
            ++ p ++ str ";;"] else [])
      = { cur with
          strasse := if s ≠ [] ∨ o ≠ [] ∨ p ≠ [] then some s else none,
          ort := if s ≠ [] ∨ o ≠ [] ∨ p ≠ [] then some o else none,
          plz := if s ≠ [] ∨ o ≠ [] ∨ p ≠ [] then some p else none } := by
  rw [foldl_seg_one]
  by_cases hc : s ≠ [] ∨ o ≠ [] ∨ p ≠ []
  · rw [if_pos hc, if_pos hc, if_pos hc, if_pos hc]
    rw [propStep_clean (line_ADR_good hcs hco hcp).2 rfl]
    exact step_ADR h1 h2 h3 hcs.1 hco.1 hcp.1 hs1 hs2 hs3
  · rw [if_neg hc, if_neg hc, if_neg hc, if_neg hc]
    exact (pc_eta_adr h1 h2 h3).symm

theorem seg_URL {cur : PartialContact} {e : Str} (hc : cur.webseite = none)
    (hcf : CleanField e) :
    List.foldl propStep cur (if e ≠ [] then [str "URL:" ++ e] else [])
      = { cur with webseite := if e = [] then none else some e } := by
  rw [foldl_seg_one]
  by_cases he : e = []
  · rw [if_neg (by simp [he]), if_pos he]
    exact (pc_eta_webseite hc).symm
  · rw [if_pos he, if_neg he]
    rw [propStep_clean (line_URL_good hcf he).2 rfl]
    exact step_URL hc hcf.1

theorem seg_BDAY {cur : PartialContact} {e : Str}
    (hc : cur.geburtsdatum = none) (hcf : CleanField e) :
    List.foldl propStep cur (if e ≠ [] then [str "BDAY:" ++ e] else [])
      = { cur with geburtsdatum := if e = [] then none else some e } := by
  rw [foldl_seg_one]
  by_cases he : e = []
  · rw [if_neg (by simp [he]), if_pos he]
    exact (pc_eta_geburtsdatum hc).symm
  · rw [if_pos he, if_neg he]
    rw [propStep_clean (line_BDAY_good hcf he).2 rfl]
    exact step_BDAY hc hcf.1

/-! ## C3: the round-trip claim -/

/-- C3 as stated is false: a record with empty last name and a two-word
first name is emitted (`N:;Ann Bee;;;`, `FN:Ann Bee`), but decoding
re-applies the `FN` fallback and yields first name `Ann`, last name `Bee` —
the emitted first name `Ann Bee` is not reproduced. -/
theorem C3_counterexample :
    parse_vcard_contacts (export_vcard [{ vorname := str "Ann Bee" }])
      = [{ vorname := str "Ann", name := str "Bee" }] ∧
    ({ vorname := str "Ann", name := str "Bee" } : Contact).vorname
      ≠ ({ vorname := str "Ann Bee" } : Contact).vorname := by
  constructor <;> decide

/-- Conditions under which a record survives the encode/decode round trip:
every emitted field is trimmed and free of line breaks; the `N`/`ADR`
components contain no semicolon (the component separator); the email is
lower-case (the decoder lower-cases it); the website is empty or carries an
`http` scheme (otherwise the encoder prepends `https://`); and the last name
is non-empty unless the first name is empty too (otherwise the decoder's
`FN` fallback re-splits the name). -/
abbrev Exportable (c : Contact) : Prop :=
  CleanField c.name ∧ CleanField c.vorname ∧ CleanField c.email ∧
  CleanField c.mobile ∧ CleanField c.festnetz ∧ CleanField c.strasse ∧
  CleanField c.ort ∧ CleanField c.plz ∧ CleanField c.webseite ∧
  CleanField c.geburtsdatum ∧
  ';' ∉ c.name ∧ ';' ∉ c.vorname ∧ ';' ∉ c.strasse ∧ ';' ∉ c.ort ∧
  ';' ∉ c.plz ∧
  pyLower c.email = c.email ∧
  (c.webseite = [] ∨ (str "http").isPrefixOf c.webseite) ∧
  (c.name ≠ [] ∨ c.vorname = [])

/-- A card dict with `vorname` set is truthy, so `commit` appends it. -/
theorem commitOf_of_vorname {cur : PartialContact} {v : Str}
    (h : cur.vorname = some v) : commitOf cur = [withDefaults cur] := by
  simp [commitOf, curNonempty, h]

set_option maxHeartbeats 3200000 in
/-- C3 amended.  For every exportable record, encoding to vCard and decoding
back yields exactly the record with `id` and `last_used` cleared: every
emitted field is reproduced and every omitted field decodes to empty. -/
theorem C3_amended_roundtrip (c : Contact) (h : Exportable c) :
    parse_vcard_contacts (export_vcard [c])
      = [{ c with _id := [], last_used := [] }] := by
  obtain ⟨hnm, hvn, hem, hmo, hfe, hst, hor, hpl, hwe, hge,
    s1, s2, s3, s4, s5, hlow, hweb, hfncase⟩ := h
  have hu : (if c.webseite ≠ [] then
      [str "URL:" ++ (if ¬ (str "http").isPrefixOf c.webseite then
        str "https://" ++ c.webseite else c.webseite)] else [])
      = (if c.webseite ≠ [] then [str "URL:" ++ c.webseite] else []) := by
    by_cases hw : c.webseite = []
    · simp [hw]
    · rcases hweb with hx | hx
      · exact absurd hx hw
      · simp [hw, hx]
  have hexp : exportCardLines c = cardLines (str "VERSION:3.0"
      :: (str "N:" ++ c.name ++ str ";" ++ c.vorname ++ str ";;;")
      :: (str "FN:" ++ pyStrip (c.vorname ++ str " " ++ c.name))
      :: ((if c.email ≠ [] then [str "EMAIL:" ++ c.email] else [])
        ++ ((if c.mobile ≠ [] then [str "TEL;TYPE=CELL:" ++ c.mobile]
            else [])
        ++ ((if c.festnetz ≠ [] then [str "TEL;TYPE=HOME:" ++ c.festnetz]
            else [])
        ++ ((if c.strasse ≠ [] ∨ c.ort ≠ [] ∨ c.plz ≠ [] then
            [str "ADR;TYPE=HOME:;;" ++ c.strasse ++ str ";" ++ c.ort
              ++ str ";;" ++ c.plz ++ str ";;"] else [])
        ++ ((if c.webseite ≠ [] then [str "URL:" ++ c.webseite] else [])
        ++ (if c.geburtsdatum ≠ [] then [str "BDAY:" ++ c.geburtsdatum]
            else []))))))) := by
    simp only [exportCardLines, cardLines]
    rw [hu]
    simp [List.append_assoc]
  have hgood : ∀ p ∈ (str "VERSION:3.0"
      :: (str "N:" ++ c.name ++ str ";" ++ c.vorname ++ str ";;;")
      :: (str "FN:" ++ pyStrip (c.vorname ++ str " " ++ c.name))
      :: ((if c.email ≠ [] then [str "EMAIL:" ++ c.email] else [])
        ++ ((if c.mobile ≠ [] then [str "TEL;TYPE=CELL:" ++ c.mobile]
            else [])
        ++ ((if c.festnetz ≠ [] then [str "TEL;TYPE=HOME:" ++ c.festnetz]
            else [])
        ++ ((if c.strasse ≠ [] ∨ c.ort ≠ [] ∨ c.plz ≠ [] then
            [str "ADR;TYPE=HOME:;;" ++ c.strasse ++ str ";" ++ c.ort
              ++ str ";;" ++ c.plz ++ str ";;"] else [])
        ++ ((if c.webseite ≠ [] then [str "URL:" ++ c.webseite] else [])
        ++ (if c.geburtsdatum ≠ [] then [str "BDAY:" ++ c.geburtsdatum]
            else []))))))), GoodLine p := by
    intro p hp
    rcases List.mem_cons.mp hp with rfl | hp
    · exact line_VERSION_good.1
    rcases List.mem_cons.mp hp with rfl | hp
    · exact (line_N_good hnm hvn).1
    rcases List.mem_cons.mp hp with rfl | hp
    · exact (line_FN_good hnm hvn).1
    rcases List.mem_append.mp hp with hp | hp
    · obtain ⟨rfl, hcnd⟩ := mem_if_singleton hp
      exact (line_EMAIL_good hem hcnd).1
    rcases List.mem_append.mp hp with hp | hp
    · obtain ⟨rfl, hcnd⟩ := mem_if_singleton hp
      exact (line_CELL_good hmo hcnd).1
    rcases List.mem_append.mp hp with hp | hp
    · obtain ⟨rfl, hcnd⟩ := mem_if_singleton hp
      exact (line_HOME_good hfe hcnd).1
    rcases List.mem_append.mp hp with hp | hp
    · obtain ⟨rfl, hcnd⟩ := mem_if_singleton hp
      exact (line_ADR_good hst hor hpl).1
    rcases List.mem_append.mp hp with hp | hp
    · obtain ⟨rfl, hcnd⟩ := mem_if_singleton hp
      exact (line_URL_good hwe hcnd).1
    · obtain ⟨rfl, hcnd⟩ := mem_if_singleton hp
      exact (line_BDAY_good hge hcnd).1
  have hexportv : export_vcard [c] = joinNl (exportCardLines c) := by
    simp [export_vcard]
  rw [hexportv, hexp]
  have hmem1 : ∀ l ∈ cardLines (str "VERSION:3.0"
      :: (str "N:" ++ c.name ++ str ";" ++ c.vorname ++ str ";;;")
      :: (str "FN:" ++ pyStrip (c.vorname ++ str " " ++ c.name))
      :: ((if c.email ≠ [] then [str "EMAIL:" ++ c.email] else [])
        ++ ((if c.mobile ≠ [] then [str "TEL;TYPE=CELL:" ++ c.mobile]
            else [])
        ++ ((if c.festnetz ≠ [] then [str "TEL;TYPE=HOME:" ++ c.festnetz]
            else [])
        ++ ((if c.strasse ≠ [] ∨ c.ort ≠ [] ∨ c.plz ≠ [] then
            [str "ADR;TYPE=HOME:;;" ++ c.strasse ++ str ";" ++ c.ort
              ++ str ";;" ++ c.plz ++ str ";;"] else [])
        ++ ((if c.webseite ≠ [] then [str "URL:" ++ c.webseite] else [])
        ++ (if c.geburtsdatum ≠ [] then [str "BDAY:" ++ c.geburtsdatum]
            else []))))))),
      ('\n' ∉ l) ∧ ('\r' ∉ l) ∧ startsWS l = false := by
    intro l hl
    rcases List.mem_append.mp hl with hl | hl
    · rcases List.mem_cons.mp hl with rfl | hl
      · exact ⟨by decide, by decide, rfl⟩
      · obtain ⟨g1, g2, g3, -, -⟩ := hgood l hl
        exact ⟨g1, g2, g3⟩
    · simp only [List.mem_singleton] at hl
      subst hl
      exact ⟨by decide, by decide, rfl⟩
  rw [parse_joinNl _ (fun l hl => (hmem1 l hl).1)
    (fun l hl => (hmem1 l hl).2.1) (fun l hl => (hmem1 l hl).2.2)]
  rw [cardFold _ hgood {} []]
  simp only [List.nil_append]
  have hV : propStep ({} : PartialContact) (str "VERSION:3.0") = {} := by
    rw [propStep_clean line_VERSION_good.2 rfl]
    exact step_VERSION {}
  have hN : propStep ({} : PartialContact)
      (str "N:" ++ c.name ++ str ";" ++ c.vorname ++ str ";;;")
      = { name := some c.name, vorname := some c.vorname } := by
    rw [propStep_clean (line_N_good hnm hvn).2 rfl]
    exact step_N hnm.1 hvn.1 s1 s2
  have hFN : propStep
      ({ name := some c.name, vorname := some c.vorname } : PartialContact)
      (str "FN:" ++ pyStrip (c.vorname ++ str " " ++ c.name))
      = { name := some c.name, vorname := some c.vorname } := by
    rw [propStep_clean (line_FN_good hnm hvn).2 rfl]
    refine step_FN _ rfl ?_
    by_cases hn : c.name = []
    · right
      rcases hfncase with hx | hx
      · exact absurd hn hx
      · rw [pyStrip_idem, hx, hn]
        decide
    · exact Or.inl hn
  simp only [List.foldl_cons, hV, hN, hFN, List.foldl_append]
  rw [seg_EMAIL rfl hem hlow, seg_CELL rfl hmo, seg_HOME rfl hfe,
    seg_ADR rfl rfl rfl hst hor hpl s3 s4 s5, seg_URL rfl hwe,
    seg_BDAY rfl hge]
  rw [if_neg Bool.false_ne_true]
  rw [commitOf_of_vorname (v := c.vorname) rfl]
  simp only [withDefaults, List.cons.injEq, and_true]
  split_ifs <;> simp_all [not_or, Contact.mk.injEq]

/-- Concrete exportable record for the round-trip witness. -/
def cW : Contact :=
  { name := str "Doe"
    vorname := str "Jane"
    email := str "jane@example.com"
    mobile := str "0170"
    webseite := str "https://ex.org"
    _id := str "X"
    last_used := str "t" }

set_option synthInstance.maxSize 1024 in
/-- Witness for C3 amended at a concrete exportable record. -/
theorem C3_witness :
    Exportable cW ∧
      parse_vcard_contacts (export_vcard [cW])
        = [{ cW with _id := [], last_used := [] }] :=
  ⟨by decide, C3_amended_roundtrip cW (by decide)⟩

/-! ## The import coordinator (`AddressBookWindow._import_contacts`)

The method receives the dicts produced by one of the decoders, tallies
`added` / `updated` / `skipped` and collects labelled diagnostics.  An
exception inside the `try` block can only come from `save()` (disk I/O),
which in every branch of `upsert_full` runs after the in-memory contact
list was already updated; we therefore play exceptions through a
per-record oracle `err : Nat → Option Str` (the raised message), and a
failing record still leaves the mutated store behind.  Fresh uuid4 ids
are likewise supplied per record by `fresh : Nat → Str`. -/

/-- Result state of an import run: the store plus the tallies and the
collected diagnostics. -/
structure ImportRes where
  contacts : List Contact
  added : Nat
  updated : Nat
  skipped : Nat
  errors : List Str
  deriving DecidableEq, Repr

/-- Line `email = _safe_strip(c.get("email")).lower()`. -/
def emailKey (c : PartialContact) : Str := pyLower (_safe_strip c.email)

/-- Diagnostic label: the record's stripped email, else `"vorname name"`
stripped, else the placeholder `"(unbekannt)"`. -/
def labelOf (c : PartialContact) : Str :=
  let em := _safe_strip c.email
  if em ≠ [] then em
  else
    let nm := pyStrip (_safe_strip c.vorname ++ str " " ++ _safe_strip c.name)
    if nm ≠ [] then nm else str "(unbekannt)"

/-- One iteration of the import loop over one incoming dict. -/
def importStep (err : Option Str) (fresh : Str) (st : ImportRes)
    (c : PartialContact) : ImportRes :=
  let email := emailKey c
  let exq := if email = [] then none else find_by_email st.contacts email
  let cs2 := upsert_full st.contacts c fresh
  match err with
  | some e =>
    let msg := labelOf c ++ str ": " ++ e
    { st with contacts := cs2, skipped := st.skipped + 1, errors := st.errors ++ [msg] }
  | none =>
    if exq.isSome then { st with contacts := cs2, updated := st.updated + 1 }
    else { st with contacts := cs2, added := st.added + 1 }

/-- The `for c in contacts` loop, carrying the record position so that the
exception oracle and the fresh-id supply are per record. -/
def importLoop (err : Nat → Option Str) (fresh : Nat → Str) :
    Nat → ImportRes → List PartialContact → ImportRes
  | _, st, [] => st
  | i, st, c :: rest =>
    importLoop err fresh (i + 1) (importStep (err i) (fresh i) st c) rest

/-- Method `AddressBookWindow._import_contacts` on a store `cs`. -/
def _import_contacts (cs : List Contact) (contacts : List PartialContact)
    (err : Nat → Option Str) (fresh : Nat → Str) : ImportRes :=
  importLoop err fresh 0 ⟨cs, 0, 0, 0, []⟩ contacts

/-- View of a full record as the dict handed to the importer (the vCard
decoder emits complete dicts). -/
def toPartial (c : Contact) : PartialContact where
  _id := some c._id
  vorname := some c.vorname
  name := some c.name
  strasse := some c.strasse
  plz := some c.plz
  ort := some c.ort
  mobile := some c.mobile
  festnetz := some c.festnetz
  email := some c.email
  geburtsdatum := some c.geburtsdatum
  webseite := some c.webseite
  last_used := some c.last_used

/-- Tallies and diagnostics of `r` on top of the base state `a`. -/
def withBase (a r : ImportRes) : ImportRes where
  contacts := r.contacts
  added := a.added + r.added
  updated := a.updated + r.updated
  skipped := a.skipped + r.skipped
  errors := a.errors ++ r.errors

/-- Outcome of a record that raised `e`: `skipped` up by one, a labelled
diagnostic in front, everything else untouched. -/
def skipRes (c : PartialContact) (e : Str) (r : ImportRes) : ImportRes where
  contacts := r.contacts
  added := r.added
  updated := r.updated
  skipped := r.skipped + 1
  errors := (labelOf c ++ str ": " ++ e) :: r.errors

theorem withBase_assoc (a b c : ImportRes) :
    withBase a (withBase b c) = withBase (withBase a b) c := by
  simp [withBase, Nat.add_assoc, List.append_assoc]

theorem importStep_base (e : Option Str) (f : Str) (st : ImportRes)
    (c : PartialContact) :
    importStep e f st c
      = withBase st (importStep e f ⟨st.contacts, 0, 0, 0, []⟩ c) := by
  cases e with
  | none =>
    simp [importStep, withBase]
    split_ifs <;> simp [withBase]
  | some e => simp [importStep, withBase]

theorem importLoop_shift :
    ∀ (l : List PartialContact) (err : Nat → Option Str)
      (fresh : Nat → Str) (i : Nat) (st : ImportRes),
    importLoop err fresh i st l
      = withBase st
          (importLoop (fun j => err (i + j)) (fun j => fresh (i + j)) 0
            ⟨st.contacts, 0, 0, 0, []⟩ l) := by
  intro l
  induction l with
  | nil =>
    intro err fresh i st
    simp [importLoop, withBase]
  | cons c rest ih =>
    intro err fresh i st
    simp only [importLoop]
    rw [ih err fresh, ih (fun j => err (i + j)) (fun j => fresh (i + j))]
    rw [importStep_base (err i) (fresh i) st c]
    have hf1 : (fun j => err (i + (0 + 1 + j))) = (fun j => err (i + 1 + j)) :=
      funext fun j => congrArg err (by omega)
    have hf2 :
        (fun j => fresh (i + (0 + 1 + j))) = (fun j => fresh (i + 1 + j)) :=
      funext fun j => congrArg fresh (by omega)
    simp only [Nat.add_zero, Nat.zero_add, hf1, hf2]
    rw [withBase_assoc]
    simp only [withBase]

theorem importLoop_total (err : Nat → Option Str) (fresh : Nat → Str) :
    ∀ (l : List PartialContact) (i : Nat) (st : ImportRes),
    (importLoop err fresh i st l).added
        + (importLoop err fresh i st l).updated
        + (importLoop err fresh i st l).skipped
      = st.added + st.updated + st.skipped + l.length := by
  intro l
  induction l with
  | nil =>
    intro i st
    simp [importLoop]
  | cons c rest ih =>
    intro i st
    simp only [importLoop]
    rw [ih]
    cases h : err i with
    | none =>
      simp only [importStep, h]
      split_ifs <;> simp <;> omega
    | some e =>
      simp [importStep, h]
      omega

theorem import_cons (cs : List Contact) (c : PartialContact)
    (rest : List PartialContact) (err : Nat → Option Str)
    (fresh : Nat → Str) :
    _import_contacts cs (c :: rest) err fresh
      = (let r := _import_contacts (upsert_full cs c (fresh 0)) rest
            (fun i => err (i + 1)) (fun i => fresh (i + 1));
         match err 0 with
         | some e => skipRes c e r
         | none =>
           if (if emailKey c = [] then none
               else find_by_email cs (emailKey c)).isSome
           then { r with updated := r.updated + 1 }
           else { r with added := r.added + 1 }) := by
  show importLoop err fresh 0 ⟨cs, 0, 0, 0, []⟩ (c :: rest) = _
  simp only [importLoop]
  rw [importLoop_shift rest err fresh]
  have hf1 : (fun j => err (0 + 1 + j)) = (fun j => err (j + 1)) :=
    funext fun j => congrArg err (by omega)
  have hf2 : (fun j => fresh (0 + 1 + j)) = (fun j => fresh (j + 1)) :=
    funext fun j => congrArg fresh (by omega)
  rw [hf1, hf2]
  cases h : err 0 with
  | none =>
    simp only [importStep, h, _import_contacts]
    split_ifs <;>
      simp [withBase, skipRes, Nat.add_comm]
  | some e =>
    simp only [importStep, h, _import_contacts]
    simp [withBase, skipRes, Nat.add_comm]

/-- The single-card vCard of the §8 scenario. -/
def vtext : Str :=
  str "BEGIN:VCARD\nN:Doe;Jane;;;\nEMAIL:Jane@Example.com\nEND:VCARD\n"

/-- The decoded dicts handed to the importer. -/
def vrecs : List PartialContact := (parse_vcard_contacts vtext).map toPartial

/-- First import of the scenario card into an empty store. -/
def vres1 : ImportRes :=
  _import_contacts [] vrecs (fun _ => none) (fun _ => str "id1")

/-- Re-import of the same card into the resulting store. -/
def vres2 : ImportRes :=
  _import_contacts vres1.contacts vrecs (fun _ => none) (fun _ => str "id2")

/-- C5.  The import coordinator (i) handles each record in order by
classifying it as update or addition with `find_by_email` on the
pre-upsert store (when its stripped lowered email is non-empty), then
always calling `upsert_full`; a record whose upsert raises increments
`skipped` and prepends a labelled diagnostic (email, else "first last",
else a placeholder) while the remaining records are still processed on
the mutated store; (ii) never aborts: the three tallies always sum to
the number of incoming records; (iii) on the §8 scenario, importing the
single card into an empty store yields added 1, updated 0, skipped 0,
and re-importing the same text yields added 0, updated 1, skipped 0
with the store still holding exactly one record. -/
theorem C5_import_coordinator :
    (∀ (cs : List Contact) (c : PartialContact)
       (rest : List PartialContact) (err : Nat → Option Str)
       (fresh : Nat → Str),
      _import_contacts cs (c :: rest) err fresh
        = (let r := _import_contacts (upsert_full cs c (fresh 0)) rest
              (fun i => err (i + 1)) (fun i => fresh (i + 1));
           match err 0 with
           | some e => skipRes c e r
           | none =>
             if (if emailKey c = [] then none
                 else find_by_email cs (emailKey c)).isSome
             then { r with updated := r.updated + 1 }
             else { r with added := r.added + 1 })) ∧
    (∀ (cs : List Contact) (contacts : List PartialContact)
       (err : Nat → Option Str) (fresh : Nat → Str),
      (_import_contacts cs contacts err fresh).added
          + (_import_contacts cs contacts err fresh).updated
          + (_import_contacts cs contacts err fresh).skipped
        = contacts.length) ∧
    (vres1.added = 1 ∧ vres1.updated = 0 ∧ vres1.skipped = 0 ∧
     vres2.added = 0 ∧ vres2.updated = 1 ∧ vres2.skipped = 0 ∧
     vres2.contacts.length = 1) := by
  refine ⟨import_cons, ?_, by decide⟩
  intro cs contacts err fresh
  simp only [_import_contacts]
  rw [importLoop_total err fresh contacts 0 ⟨cs, 0, 0, 0, []⟩]
  simp

end Adressbuch
